import Mathlib

/-!
# Verification of the Todoist–Habitica reconciliation engine

This file is a shallow embedding, in Lean 4, of the synchronization engine of
the `todoisthabitica` repository.  The repository contains two near-duplicate
implementations of the engine:

* `main.py` (the root variant, called the *src variant* below), and
* `online sync/main.py` (the *online variant* below).

The two variants share their data model, their tag parser, their state store,
their Habitica/Todoist client helpers, and steps 2, 4 and 5 of the cycle;
they differ in step 3 (the Origin-driven sync): on a vanished Origin task the
src variant *deletes* the mirror task while the online variant *completes* it,
and on a rescheduled task the online variant additionally marks the deleted
mirror id as processed.  Both step-3 variants are embedded below.

Strings are modelled as `List Char` (`Str`), Python sets of ids as `List Str`
with membership-guarded insertion, and the Python dict
`todoist_to_habitica_map` as an insertion-ordered association list with
update-in-place semantics, exactly matching Python's dict behaviour.
Remote I/O (the Habitica/Todoist HTTP calls) is modelled by a `World` of
response oracles; the engine records every outgoing mutating call in a trace.
-/

set_option autoImplicit false

namespace TodoistHabitica

/-- Python strings are modelled as lists of characters. -/
abbrev Str := List Char

/-! ## Python `str.split` (for non-empty separators)

`main.py` parses the cross-system tag with
`notes.split('[TodoistID:')[1].split(']')[0]`.  We embed CPython's
`str.split(sep)` semantics for a non-empty separator: the string is cut at
every non-overlapping occurrence of `sep`, scanning left to right.
`findFirst sep s` returns the text before and after the first occurrence of
`sep` in `s` (or `none` when `sep` does not occur). -/
def findFirst (sep : Str) : Str → Option (Str × Str)
  | [] => if sep.isPrefixOf ([] : Str) then some ([], []) else none
  | c :: rest =>
    if sep.isPrefixOf (c :: rest) then some ([], (c :: rest).drop sep.length)
    else (findFirst sep rest).map (fun pr => (c :: pr.1, pr.2))

/-- Fuelled worker for `pySplit`; the fuel bounds the number of cuts, and
`s.length` is always enough fuel for a non-empty separator. -/
def pySplitF (sep : Str) : Nat → Str → List Str
  | 0, s => [s]
  | fuel + 1, s =>
    match findFirst sep s with
    | none => [s]
    | some (pre, post) => pre :: pySplitF sep fuel post

/-- Python `s.split(sep)` for a non-empty separator `sep`. -/
def pySplit (sep s : Str) : List Str :=
  pySplitF sep s.length s

/-- The literal tag opener `"[TodoistID:"` embedded in Habitica notes. -/
def todoistMarker : Str := ['[', 'T', 'o', 'd', 'o', 'i', 's', 't', 'I', 'D', ':']

/-- The Habitica task type `"todo"`. -/
def todoType : Str := ['t', 'o', 'd', 'o']

/-- Python `'[TodoistID:' in notes`. -/
def containsMarker (notes : Str) : Bool :=
  (findFirst todoistMarker notes).isSome

/-- The tag parser of both variants:
`notes.split('[TodoistID:')[1].split(']')[0]`, with the `IndexError`
(no occurrence of the opener, so the split has a single field) mapped to
`none`.  `split(']')[0]` never raises because a split result is non-empty. -/
def parse_todoist_tag (notes : Str) : Option Str :=
  match pySplit todoistMarker notes with
  | _ :: chunk :: _ => some ((pySplit [']'] chunk).headD chunk)
  | _ => none

/-- The notes written by step 5 of both variants:
`f"{task.description if task.description else ''}\n\n[TodoistID:{task.id}]"`
(an empty description and a missing description produce the same string). -/
def habitica_notes_embed (description tid : Str) : Str :=
  description ++ ['\n', '\n'] ++ todoistMarker ++ tid ++ [']']

/-! ## Data model -/

/-- A Todoist task as the engine reads it: `id`, `content`, `description`,
`is_completed`, and the due date (`task.due.date`, an ISO date string, or
`none` when the task has no due data).  The online variant's client-side
filter parses the due string with `strptime("%Y-%m-%d")` and compares dates;
for canonical ISO date strings this is string equality, which is how the
filter is embedded. -/
structure TodoistTask where
  id : Str
  content : Str
  description : Str
  is_completed : Bool
  due : Option Str
  deriving Repr, DecidableEq

/-- A Habitica task as returned by `get_habitica_user_tasks`: the fields the
engine reads from the JSON dict.  A missing/None `notes` field and an empty
one are both falsy in Python and are both modelled by `[]`. -/
structure HabiticaTask where
  id : Str
  text : Str
  notes : Str
  type : Str
  completed : Bool
  deriving Repr, DecidableEq

/-- Python truthiness of a string-valued environment variable:
`os.environ.get` yields `None` (unset) or a string, and `not v` is true for
`None` and for the empty string. -/
def truthy : Option Str → Bool
  | none => false
  | some s => !s.isEmpty

/-- Python truthiness of an optional string (`if not corresponding_tid`):
falsy when `None` or empty. -/
def pyFalsy : Option Str → Bool
  | none => true
  | some s => s.isEmpty

/-- The environment variables read at module load:
`TODOIST_API_KEY`, `HABITICA_API_USER`, `HABITICA_API_KEY`. -/
structure Env where
  todoistKey : Option Str
  habiticaUser : Option Str
  habiticaKey : Option Str

/-- Outcome of one HTTP request as seen through `requests`:
a 2xx response, an HTTP error status raised by `raise_for_status`, or a
transport-level `RequestException`. -/
inductive HttpOutcome where
  | ok
  | httpError (status : Nat)
  | transportError
  deriving Repr, DecidableEq

/-- The remote world: the response each HTTP call of one cycle would get,
keyed by the task id (and, for task creation, by content and notes).
`habiticaCreateResp` yields the id of the created task (`none` models a
failed POST or a response without a truthy id). -/
structure World where
  habiticaScoreResp : Str → HttpOutcome
  habiticaDeleteResp : Str → HttpOutcome
  todoistCloseRaises : Str → Bool
  habiticaCreateResp : Str → Str → Option Str

/-! ## Link Store: `load_processed_state` / `save_processed_state` -/

/-- The state of the persisted blob at `STATE_FILE_PATH`: the file may be
absent (`os.path.exists` false), unreadable (`open`/`read` raises, caught by
the generic `except`), contain malformed JSON (`json.JSONDecodeError`), or
hold a JSON object from which the two id lists are read with
`state_data.get(key, [])`. -/
inductive LinkStoreFile where
  | absent
  | unreadable
  | malformedJson
  | wellFormed (pt ph : List Str)

/-- `load_processed_state`: returns the two processed-id sets, falling back
to the empty pair on a missing, unreadable or corrupt file.  Python `set(l)`
is modelled by `l.dedup` (membership-equivalent). -/
def load_processed_state : LinkStoreFile → List Str × List Str
  | .absent => ([], [])
  | .unreadable => ([], [])
  | .malformedJson => ([], [])
  | .wellFormed pt ph => (pt.dedup, ph.dedup)

/-! ## Remote-client helpers -/

/-- `complete_habitica_task` (score up): `False` without credentials, `True`
exactly when the scoring POST succeeds (`raise_for_status` catches every
HTTP error as a `RequestException`). -/
def complete_habitica_task (env : Env) (w : World) (hid : Str) : Bool :=
  if truthy env.habiticaUser && truthy env.habiticaKey then
    match w.habiticaScoreResp hid with
    | .ok => true
    | _ => false
  else false

/-- `delete_habitica_task`: `False` without credentials; on an HTTP error a
404 is treated as success (task already gone) and every other status as
failure; transport failures fail. -/
def delete_habitica_task (env : Env) (w : World) (hid : Str) : Bool :=
  if truthy env.habiticaUser && truthy env.habiticaKey then
    match w.habiticaDeleteResp hid with
    | .ok => true
    | .httpError s => s == 404
    | .transportError => false
  else false

/-- `complete_todoist_task`: every branch of the non-raising path returns
`True` (the function only distinguishes raised exceptions), so the call
succeeds exactly when `api.close_task` does not raise. -/
def complete_todoist_task (w : World) (tid : Str) : Bool :=
  !(w.todoistCloseRaises tid)

/-- `create_habitica_task_from_todoist`: `None` without credentials,
otherwise the created task of the POST response (`none` on failure). -/
def create_habitica_task_from_todoist (env : Env) (w : World)
    (content notes : Str) : Option Str :=
  if truthy env.habiticaUser && truthy env.habiticaKey then
    w.habiticaCreateResp content notes
  else none

/-! ## Sets and the Origin→Mirror map

A Python `set` of ids is modelled as a duplicate-free `List Str` with a
membership-guarded insert; the Python dict `todoist_to_habitica_map` as an
insertion-ordered association list: writing an existing key updates it in
place, writing a fresh key appends, exactly like a CPython dict. -/

/-- Python `set.add`. -/
def insertS (x : Str) (s : List Str) : List Str :=
  if x ∈ s then s else x :: s

/-- Python `d[k]` / `k in d` lookup (keys are unique by construction). -/
def lookupM (k : Str) : List (Str × Str) → Option Str
  | [] => none
  | e :: rest => if e.1 = k then some e.2 else lookupM k rest

/-- Python `d[k] = v`: in-place update of an existing key, append of a
fresh one. -/
def setM (k v : Str) : List (Str × Str) → List (Str × Str)
  | [] => [(k, v)]
  | e :: rest => if e.1 = k then (k, v) :: rest else e :: setM k v rest

/-- The keys of the map, in order. -/
def keysM (m : List (Str × Str)) : List Str := m.map (·.1)

/-- Python `d.values()`. -/
def valuesM (m : List (Str × Str)) : List Str := m.map (·.2)

/-- The first key mapping to a given value
(`for t_id, mapped_h_id in d.items(): if mapped_h_id == h_id: ...; break`). -/
def findKeyByValue (hid : Str) : List (Str × Str) → Option Str
  | [] => none
  | e :: rest => if e.2 = hid then some e.1 else findKeyByValue hid rest

/-! ## The mutating remote calls of a cycle -/

/-- One outgoing mutating remote call, as recorded in the cycle trace. -/
inductive Action where
  | completeHabitica (hid : Str)
  | deleteHabitica (hid : Str)
  | closeTodoist (tid : Str)
  | createHabitica (content notes : Str)
  deriving Repr, DecidableEq

/-! ## Step 1: the Origin snapshot index

`todoist_tasks_by_id_map = {task.id: task for task in tasks}` — a dict
comprehension, so the *last* task with a given id wins. -/

/-- `{task.id: task for task in ts}` as a lookup function. -/
def buildById (ts : List TodoistTask) : Str → Option TodoistTask :=
  fun tid => ts.foldl (fun acc t => if t.id = tid then some t else acc) none

/-- The online variant's client-side due-date filter (lines 326–354 of
`online sync/main.py`): keep the tasks whose due date string equals today's
ISO date; tasks without due data are skipped. -/
def filterDueToday (today : Str) (ts : List TodoistTask) : List TodoistTask :=
  ts.filter (fun t => t.due = some today)

/-! ## Step 2: map reconciliation from Habitica note tags -/

/-- One iteration of the reconciliation loop: for a `todo`-typed task with
non-empty notes containing the tag opener, extract the tagged Todoist id; if
it is truthy, record the Habitica id as validly tagged and write
`map[found_tid] = found_hid` (the code first checks `not in` and then `!=`,
but the net effect of both branches together is exactly this write). -/
def reconcileStep (acc : List (Str × Str) × List Str) (ht : HabiticaTask) :
    List (Str × Str) × List Str :=
  if ht.type = todoType ∧ ht.notes ≠ [] ∧ containsMarker ht.notes then
    match parse_todoist_tag ht.notes with
    | some found_tid =>
      if found_tid ≠ [] then (setM found_tid ht.id acc.1, insertS ht.id acc.2)
      else acc
    | none => acc
  else acc

/-- Step 2 of both variants, starting from the empty map (the map is reset
at the top of every cycle): returns the reconciled map and the set
`habitica_ids_with_valid_tags`. -/
def reconcileMap (hs : List HabiticaTask) : List (Str × Str) × List Str :=
  hs.foldl reconcileStep ([], [])

/-! ## Step 3: Origin-driven sync (`T->H`) -/

/-- The state threaded through the step-3 loop: the two processed sets, the
set `ids_to_remove_from_map_after_combined_TH_sync`, and the trace of remote
calls issued so far in this step. -/
structure S3 where
  pt : List Str
  ph : List Str
  removeIds : List Str
  trace : List Action
  deriving Repr, DecidableEq

/-- One iteration of the step-3 loop of the src variant (`main.py`
lines 300–328) over a map entry `(todoist_id, habitica_id)`:

* task present and completed, id unprocessed → score the Habitica task; on
  success add both ids to the processed sets; schedule the map entry for
  removal regardless of success;
* task present, not completed, not in today's active set → delete the
  Habitica task (success or failure changes no set) and schedule removal;
* task absent from the snapshot and id unprocessed → **delete** the
  Habitica task (this variant deletes, it does not complete) and schedule
  removal, touching no processed set. -/
def step3SrcEntry (env : Env) (w : World) (byId : Str → Option TodoistTask)
    (activeIds : List Str) (s : S3) (e : Str × Str) : S3 :=
  match byId e.1 with
  | some tk =>
    if tk.is_completed then
      if e.1 ∉ s.pt then
        if complete_habitica_task env w e.2 then
          { pt := insertS e.1 s.pt, ph := insertS e.2 s.ph,
            removeIds := insertS e.1 s.removeIds,
            trace := s.trace ++ [.completeHabitica e.2] }
        else
          { s with removeIds := insertS e.1 s.removeIds,
                   trace := s.trace ++ [.completeHabitica e.2] }
      else s
    else
      if e.1 ∈ activeIds then s
      else
        { s with removeIds := insertS e.1 s.removeIds,
                 trace := s.trace ++ [.deleteHabitica e.2] }
  | none =>
    if e.1 ∉ s.pt then
      { s with removeIds := insertS e.1 s.removeIds,
               trace := s.trace ++ [.deleteHabitica e.2] }
    else s

/-- One iteration of the step-3 loop of the online variant
(`online sync/main.py` lines 388–417).  The completed branch is identical to
the src variant; the reschedule branch additionally marks the deleted
Habitica id as processed on success; the vanished branch **completes** the
Habitica task (instead of deleting it) and on success adds both ids to the
processed sets. -/
def step3OnlineEntry (env : Env) (w : World) (byId : Str → Option TodoistTask)
    (activeIds : List Str) (s : S3) (e : Str × Str) : S3 :=
  match byId e.1 with
  | some tk =>
    if tk.is_completed then
      if e.1 ∉ s.pt then
        if complete_habitica_task env w e.2 then
          { pt := insertS e.1 s.pt, ph := insertS e.2 s.ph,
            removeIds := insertS e.1 s.removeIds,
            trace := s.trace ++ [.completeHabitica e.2] }
        else
          { s with removeIds := insertS e.1 s.removeIds,
                   trace := s.trace ++ [.completeHabitica e.2] }
      else s
    else
      if e.1 ∈ activeIds then s
      else
        if delete_habitica_task env w e.2 then
          { s with ph := insertS e.2 s.ph,
                   removeIds := insertS e.1 s.removeIds,
                   trace := s.trace ++ [.deleteHabitica e.2] }
        else
          { s with removeIds := insertS e.1 s.removeIds,
                   trace := s.trace ++ [.deleteHabitica e.2] }
  | none =>
    if e.1 ∉ s.pt then
      if complete_habitica_task env w e.2 then
        { pt := insertS e.1 s.pt, ph := insertS e.2 s.ph,
          removeIds := insertS e.1 s.removeIds,
          trace := s.trace ++ [.completeHabitica e.2] }
      else
        { s with removeIds := insertS e.1 s.removeIds,
                 trace := s.trace ++ [.completeHabitica e.2] }
    else s

/-- The deferred map removal executed right after the step-3 loop:
`for tid in ids_to_remove: if tid in map: del map[tid]` (order-preserving). -/
def removeKeys (removeIds : List Str) (m : List (Str × Str)) :
    List (Str × Str) :=
  m.filter (fun e => e.1 ∉ removeIds)

/-! ## Step 4: Mirror-driven completion propagation (`H->T`)

Identical in both variants (`main.py` lines 334–369). -/

/-- The state threaded through the step-4 loop.  `trace` starts empty; the
cycle concatenates the per-step traces in chronological order. -/
structure S4 where
  pt : List Str
  ph : List Str
  removeIds : List Str
  trace : List Action
  deriving Repr, DecidableEq

/-- Resolution of the Origin id of a completed mirror task: first key of the
(post-step-3) map holding this Habitica id; when that is falsy, re-parse the
note tag (an unparsable tag leaves the falsy map answer in place). -/
def resolveTid (m : List (Str × Str)) (ht : HabiticaTask) : Option Str :=
  let viaMap := findKeyByValue ht.id m
  if pyFalsy viaMap then
    match parse_todoist_tag ht.notes with
    | some t => some t
    | none => viaMap
  else viaMap

/-- One iteration of the step-4 loop over a Habitica task: if the task is
linked (tagged or a current map value), completed, and its id unprocessed,
resolve its Todoist id; a truthy unprocessed id is closed in Todoist (on
success both ids become processed and the map entry is scheduled for
removal); a truthy already-processed id just marks the Habitica id
processed; an unresolvable id marks the Habitica id processed to avoid an
infinite retry. -/
def step4Entry (w : World) (m1 : List (Str × Str))
    (tagged : List Str) (s : S4) (ht : HabiticaTask) : S4 :=
  if (ht.id ∈ tagged ∨ ht.id ∈ valuesM m1) ∧ ht.completed = true ∧
      ht.id ∉ s.ph then
    match resolveTid m1 ht with
    | some t =>
      if t ≠ [] then
        if t ∉ s.pt then
          if complete_todoist_task w t then
            { pt := insertS t s.pt, ph := insertS ht.id s.ph,
              removeIds := insertS t s.removeIds,
              trace := s.trace ++ [.closeTodoist t] }
          else { s with trace := s.trace ++ [.closeTodoist t] }
        else { s with ph := insertS ht.id s.ph }
      else { s with ph := insertS ht.id s.ph }
    | none => { s with ph := insertS ht.id s.ph }
  else s

/-! ## Step 5: new-task propagation (`T->H`)

Identical in both variants. -/

/-- One iteration of the step-5 loop over a Todoist task due today: an
unmapped, uncompleted task is created in Habitica with the embedded note
tag; a created task with a truthy id is recorded in the map. -/
def step5Entry (env : Env) (w : World)
    (s : List (Str × Str) × List Action) (tk : TodoistTask) :
    List (Str × Str) × List Action :=
  if lookupM tk.id s.1 = none ∧ tk.is_completed = false then
    let notes := habitica_notes_embed tk.description tk.id
    let tr := s.2 ++ [.createHabitica tk.content notes]
    match create_habitica_task_from_todoist env w tk.content notes with
    | some hid => if hid ≠ [] then (setM tk.id hid s.1, tr) else (s.1, tr)
    | none => (s.1, tr)
  else s

/-! ## The full cycle

Both variants load the persisted state, bail out (returning Python `None`,
saving nothing and touching no remote) when the Todoist key or either
Habitica credential is unset, and otherwise run steps 1–5 and save the
grown processed sets, returning `("Sync complete", 200)`.

The I/O boundary of the embedding: `get_todoist_tasks` and
`get_habitica_user_tasks` are remote reads, so their results are inputs of
the cycle function.  For the src variant the input `ts` is the returned
snapshot of its `get_todoist_tasks` (which also serves as
`todoist_tasks_for_today`); for the online variant the input `allTs` is the
returned snapshot of its `get_todoist_tasks` and the due-today list is the
client-side filter applied inside the cycle.  The two helper calls
`remove_duplicate_habitica_tasks` / `cleanup_non_today_habitica_tasks` of
the src variant are defined nowhere in the repository and appear in no step
of the specified algorithm; they are modelled as leaving the snapshot
unchanged. -/

/-- The result of one cycle: the Python return value (`none` for the bare
`return` of the credential guards), the final processed sets, the final
in-memory map, the chronological trace of mutating remote calls, and
whether `save_processed_state` was reached. -/
structure CycleResult where
  outcome : Option (String × Nat)
  pt : List Str
  ph : List Str
  map : List (Str × Str)
  trace : List Action
  saved : Bool

/-- Step-3 state of the src variant, after the loop over the reconciled
map's entries. -/
def srcStage3 (env : Env) (w : World) (ts : List TodoistTask)
    (hs : List HabiticaTask) (pt0 ph0 : List Str) : S3 :=
  ((reconcileMap hs).1).foldl
    (step3SrcEntry env w (buildById ts) (ts.map (·.id)))
    ⟨pt0, ph0, [], []⟩

/-- The map after the src variant's step-3 removals. -/
def srcMap1 (env : Env) (w : World) (ts : List TodoistTask)
    (hs : List HabiticaTask) (pt0 ph0 : List Str) : List (Str × Str) :=
  removeKeys (srcStage3 env w ts hs pt0 ph0).removeIds (reconcileMap hs).1

/-- Step-4 state of the src variant, after the loop over the Habitica
snapshot (trace local to step 4). -/
def srcStage4 (env : Env) (w : World) (ts : List TodoistTask)
    (hs : List HabiticaTask) (pt0 ph0 : List Str) : S4 :=
  let s3 := srcStage3 env w ts hs pt0 ph0
  hs.foldl (step4Entry w (srcMap1 env w ts hs pt0 ph0) (reconcileMap hs).2)
    ⟨s3.pt, s3.ph, [], []⟩

/-- The map after the src variant's step-4 removals. -/
def srcMap2 (env : Env) (w : World) (ts : List TodoistTask)
    (hs : List HabiticaTask) (pt0 ph0 : List Str) : List (Str × Str) :=
  removeKeys (srcStage4 env w ts hs pt0 ph0).removeIds
    (srcMap1 env w ts hs pt0 ph0)

/-- Step 5 of the src variant: map and step-local trace after the
new-task loop over today's snapshot. -/
def srcStage5 (env : Env) (w : World) (ts : List TodoistTask)
    (hs : List HabiticaTask) (pt0 ph0 : List Str) :
    List (Str × Str) × List Action :=
  ts.foldl (step5Entry env w) (srcMap2 env w ts hs pt0 ph0, [])

/-- `perform_single_sync_cycle` of `main.py` (the src variant). -/
def perform_single_sync_cycle (env : Env) (w : World)
    (file : LinkStoreFile) (ts : List TodoistTask)
    (hs : List HabiticaTask) : CycleResult :=
  let (pt0, ph0) := load_processed_state file
  if ¬ truthy env.todoistKey then
    { outcome := none, pt := pt0, ph := ph0, map := [], trace := [],
      saved := false }
  else if ¬ (truthy env.habiticaUser ∧ truthy env.habiticaKey) then
    { outcome := none, pt := pt0, ph := ph0, map := [], trace := [],
      saved := false }
  else
    let s3 := srcStage3 env w ts hs pt0 ph0
    let s4 := srcStage4 env w ts hs pt0 ph0
    let s5 := srcStage5 env w ts hs pt0 ph0
    { outcome := some ("Sync complete", 200),
      pt := s4.pt, ph := s4.ph, map := s5.1,
      trace := s3.trace ++ s4.trace ++ s5.2,
      saved := true }

/-- Step-3 state of the online variant: the by-id index is built from the
full fetched snapshot, while the active-id set comes from the client-side
due-today filter. -/
def onlStage3 (env : Env) (w : World) (allTs : List TodoistTask)
    (today : Str) (hs : List HabiticaTask) (pt0 ph0 : List Str) : S3 :=
  ((reconcileMap hs).1).foldl
    (step3OnlineEntry env w (buildById allTs)
      ((filterDueToday today allTs).map (·.id)))
    ⟨pt0, ph0, [], []⟩

/-- The map after the online variant's step-3 removals. -/
def onlMap1 (env : Env) (w : World) (allTs : List TodoistTask)
    (today : Str) (hs : List HabiticaTask) (pt0 ph0 : List Str) :
    List (Str × Str) :=
  removeKeys (onlStage3 env w allTs today hs pt0 ph0).removeIds
    (reconcileMap hs).1

/-- Step-4 state of the online variant. -/
def onlStage4 (env : Env) (w : World) (allTs : List TodoistTask)
    (today : Str) (hs : List HabiticaTask) (pt0 ph0 : List Str) : S4 :=
  let s3 := onlStage3 env w allTs today hs pt0 ph0
  hs.foldl
    (step4Entry w (onlMap1 env w allTs today hs pt0 ph0)
      (reconcileMap hs).2)
    ⟨s3.pt, s3.ph, [], []⟩

/-- The map after the online variant's step-4 removals. -/
def onlMap2 (env : Env) (w : World) (allTs : List TodoistTask)
    (today : Str) (hs : List HabiticaTask) (pt0 ph0 : List Str) :
    List (Str × Str) :=
  removeKeys (onlStage4 env w allTs today hs pt0 ph0).removeIds
    (onlMap1 env w allTs today hs pt0 ph0)

/-- Step 5 of the online variant, over the due-today filtered snapshot. -/
def onlStage5 (env : Env) (w : World) (allTs : List TodoistTask)
    (today : Str) (hs : List HabiticaTask) (pt0 ph0 : List Str) :
    List (Str × Str) × List Action :=
  (filterDueToday today allTs).foldl (step5Entry env w)
    (onlMap2 env w allTs today hs pt0 ph0, [])

/-- `perform_single_sync_cycle` of `online sync/main.py` (the online
variant). -/
def perform_single_sync_cycle_online (env : Env) (w : World)
    (file : LinkStoreFile) (allTs : List TodoistTask) (today : Str)
    (hs : List HabiticaTask) : CycleResult :=
  let (pt0, ph0) := load_processed_state file
  if ¬ truthy env.todoistKey then
    { outcome := none, pt := pt0, ph := ph0, map := [], trace := [],
      saved := false }
  else if ¬ (truthy env.habiticaUser ∧ truthy env.habiticaKey) then
    { outcome := none, pt := pt0, ph := ph0, map := [], trace := [],
      saved := false }
  else
    let s3 := onlStage3 env w allTs today hs pt0 ph0
    let s4 := onlStage4 env w allTs today hs pt0 ph0
    let s5 := onlStage5 env w allTs today hs pt0 ph0
    { outcome := some ("Sync complete", 200),
      pt := s4.pt, ph := s4.ph, map := s5.1,
      trace := s3.trace ++ s4.trace ++ s5.2,
      saved := true }

/-! ## Lemmas about `findFirst` and `pySplit` -/

theorem findFirst_nil {sep : Str} (h : sep ≠ []) : findFirst sep [] = none := by
  cases sep with
  | nil => exact absurd rfl h
  | cons c t => simp [findFirst, List.isPrefixOf]

theorem findFirst_post_lt {sep : Str} (hsep : sep ≠ []) :
    ∀ {s pre post : Str}, findFirst sep s = some (pre, post) →
      post.length < s.length := by
  intro s
  induction s with
  | nil =>
    intro pre post h
    rw [findFirst_nil hsep] at h
    exact absurd h (by simp)
  | cons c rest ih =>
    intro pre post h
    rw [findFirst] at h
    split at h
    · rename_i hpre
      injection h with h
      have h1 : post = (c :: rest).drop sep.length := congrArg Prod.snd h.symm
      subst h1
      have : 1 ≤ sep.length := by
        cases sep with
        | nil => exact absurd rfl hsep
        | cons a b => simp
      calc ((c :: rest).drop sep.length).length
          = (c :: rest).length - sep.length := by rw [List.length_drop]
        _ < (c :: rest).length := by
            apply Nat.sub_lt (by simp) (Nat.lt_of_lt_of_le Nat.zero_lt_one this)
    · cases hrec : findFirst sep rest with
      | none => rw [hrec] at h; exact absurd h (by simp)
      | some pr =>
        rw [hrec] at h
        simp only [Option.map_some'] at h
        injection h with h
        have h2 : post = pr.2 := congrArg Prod.snd h.symm
        subst h2
        exact Nat.lt_trans (ih hrec) (by simp)

theorem pySplitF_succ (sep : Str) (m : Nat) (s : Str) :
    pySplitF sep (m + 1) s =
      match findFirst sep s with
      | none => [s]
      | some (pre, post) => pre :: pySplitF sep m post := rfl

theorem pySplit_of_none {sep s : Str} (h : findFirst sep s = none) :
    pySplit sep s = [s] := by
  unfold pySplit
  cases hsl : s.length with
  | zero => rfl
  | succ k => simp only [pySplitF_succ, h]

theorem pySplitF_fuel {sep : Str} (hsep : sep ≠ []) :
    ∀ (n : Nat) (s : Str), s.length ≤ n →
      pySplitF sep n s = pySplit sep s := by
  intro n
  induction n using Nat.strong_induction_on with
  | _ n ih =>
    intro s hlen
    match n with
    | 0 =>
      have : s = [] := List.eq_nil_of_length_eq_zero (Nat.le_zero.mp hlen)
      subst this
      rfl
    | Nat.succ m =>
      cases hf : findFirst sep s with
      | none =>
        rw [pySplit_of_none hf]
        simp only [pySplitF_succ, hf]
      | some pr =>
        obtain ⟨pre, post⟩ := pr
        have hpost := findFirst_post_lt hsep hf
        have hsne : s ≠ [] := by
          intro h; subst h; rw [findFirst_nil hsep] at hf; exact absurd hf (by simp)
        obtain ⟨k, hsl⟩ : ∃ k, s.length = k + 1 := by
          cases hsl : s.length with
          | zero => exact absurd (List.eq_nil_of_length_eq_zero hsl) hsne
          | succ k => exact ⟨k, rfl⟩
        have lhs_eq : pySplitF sep (m + 1) s = pre :: pySplitF sep m post := by
          simp only [pySplitF_succ, hf]
        have rhs_eq : pySplit sep s = pre :: pySplitF sep k post := by
          unfold pySplit
          rw [hsl]
          simp only [pySplitF_succ, hf]
        rw [lhs_eq, rhs_eq]
        congr 1
        rw [ih m (Nat.lt_succ_self m) post (by omega),
          ih k (by omega) post (by omega)]

theorem pySplit_of_some {sep s pre post : Str} (hsep : sep ≠ [])
    (h : findFirst sep s = some (pre, post)) :
    pySplit sep s = pre :: pySplit sep post := by
  have hsne : s ≠ [] := by
    intro hn; subst hn; rw [findFirst_nil hsep] at h; exact absurd h (by simp)
  obtain ⟨k, hsl⟩ : ∃ k, s.length = k + 1 := by
    cases hsl : s.length with
    | zero => exact absurd (List.eq_nil_of_length_eq_zero hsl) hsne
    | succ k => exact ⟨k, rfl⟩
  have hpost := findFirst_post_lt hsep h
  unfold pySplit
  rw [hsl]
  simp only [pySplitF_succ, h]
  congr 1
  exact pySplitF_fuel hsep k post (by omega)

theorem findFirst_none_iff {sep : Str} (hsep : sep ≠ []) :
    ∀ {s : Str}, findFirst sep s = none ↔ ¬ sep <:+: s := by
  intro s
  induction s with
  | nil =>
    rw [findFirst_nil hsep]
    simp only [true_iff]
    intro hinf
    exact hsep (List.eq_nil_of_infix_nil hinf)
  | cons c rest ih =>
    rw [findFirst]
    constructor
    · intro h
      split at h
      · exact absurd h (by simp)
      · rename_i hnp
        rw [List.infix_cons_iff]
        push_neg
        refine ⟨fun hp => hnp (List.isPrefixOf_iff_prefix.mpr hp), ?_⟩
        cases hrec : findFirst sep rest with
        | none => exact ih.mp hrec
        | some pr => rw [hrec] at h; exact absurd h (by simp)
    · intro h
      rw [List.infix_cons_iff] at h
      push_neg at h
      split
      · rename_i hp
        exact absurd (List.isPrefixOf_iff_prefix.mp hp) h.1
      · rw [ih.mpr h.2]
        rfl

theorem findFirst_here {sep s : Str} (hsep : sep ≠ []) (h : sep <+: s) :
    findFirst sep s = some ([], s.drop sep.length) := by
  cases s with
  | nil =>
    obtain ⟨t, ht⟩ := h
    cases sep with
    | nil => exact absurd rfl hsep
    | cons a b => simp at ht
  | cons c rest =>
    rw [findFirst, if_pos (List.isPrefixOf_iff_prefix.mpr h)]

/-- A separator free of a character `c` cannot be a prefix across `c`. -/
theorem prefix_through_barrier {sep xs ws : Str} {c : Char} (hc : c ∉ sep)
    (h : sep <+: xs ++ c :: ws) : sep <+: xs := by
  induction sep generalizing xs with
  | nil => exact List.nil_prefix
  | cons a t ih =>
    cases xs with
    | nil =>
      rw [List.nil_append, List.cons_prefix_cons] at h
      exact absurd (h.1 ▸ List.mem_cons_self a t) hc
    | cons x xs' =>
      rw [List.cons_append, List.cons_prefix_cons] at h
      rw [List.cons_prefix_cons]
      exact ⟨h.1, ih (fun hm => hc (List.mem_cons_of_mem a hm)) h.2⟩

/-- A separator free of a character `c` is an infix of `xs ++ [c]` only if it
is an infix of `xs`. -/
theorem infix_snoc_barrier {sep xs : Str} {c : Char} (hc : c ∉ sep)
    (hsep : sep ≠ []) (h : sep <:+: xs ++ [c]) : sep <:+: xs := by
  rw [← List.reverse_infix] at h ⊢
  rw [List.reverse_append] at h
  simp only [List.reverse_cons, List.reverse_nil, List.nil_append,
    List.singleton_append] at h
  rw [List.infix_cons_iff] at h
  rcases h with hp | hi
  · cases hrev : sep.reverse with
    | nil => exact absurd (by simpa using congrArg List.reverse hrev) hsep
    | cons d t =>
      rw [hrev, List.cons_prefix_cons] at hp
      have : d ∈ sep := by
        have : d ∈ sep.reverse := hrev ▸ List.mem_cons_self d t
        simpa using this
      exact absurd (hp.1 ▸ this) hc
  · exact hi

/-! ## The tag round-trip -/

theorem todoistMarker_ne_nil : todoistMarker ≠ [] := by decide

theorem newline_not_mem_marker : '\n' ∉ todoistMarker := by decide

theorem rbracket_not_mem_marker : ']' ∉ todoistMarker := by decide

theorem findFirst_cons_of_no_hit {sep rest : Str} {c : Char}
    (h : ¬ sep <+: c :: rest) :
    findFirst sep (c :: rest) =
      (findFirst sep rest).map (fun pr => (c :: pr.1, pr.2)) := by
  rw [findFirst, if_neg (fun hb => h (List.isPrefixOf_iff_prefix.mp hb))]

theorem marker_not_prefix_newline (w : Str) :
    ¬ todoistMarker <+: '\n' :: w := by
  intro h
  rw [show todoistMarker = '[' :: ['T','o','d','o','i','s','t','I','D',':']
      from rfl, List.cons_prefix_cons] at h
  exact absurd h.1 (by decide)

/-- The first occurrence of the tag opener in notes of the shape
`description ++ "\n\n" ++ marker ++ zs` is exactly the embedded one, as long
as the description itself does not contain the opener (the opener contains
no newline, so no occurrence can straddle the `"\n\n"` separator). -/
theorem findFirst_marker_embed (desc zs : Str)
    (hdesc : ¬ todoistMarker <:+: desc) :
    findFirst todoistMarker (desc ++ '\n' :: '\n' :: (todoistMarker ++ zs)) =
      some (desc ++ ['\n', '\n'], zs) := by
  induction desc with
  | nil =>
    rw [List.nil_append,
      findFirst_cons_of_no_hit (marker_not_prefix_newline _),
      findFirst_cons_of_no_hit (marker_not_prefix_newline _),
      findFirst_here todoistMarker_ne_nil (List.prefix_append _ zs),
      List.drop_left]
    rfl
  | cons c d ih =>
    have hnp : ¬ todoistMarker <+: c :: (d ++ '\n' :: '\n' :: (todoistMarker ++ zs)) := by
      intro h
      rw [show c :: (d ++ '\n' :: '\n' :: (todoistMarker ++ zs)) =
          (c :: d) ++ '\n' :: ('\n' :: (todoistMarker ++ zs)) by simp] at h
      exact hdesc
        (List.IsPrefix.isInfix (prefix_through_barrier newline_not_mem_marker h))
    rw [List.cons_append, findFirst_cons_of_no_hit hnp,
      ih (fun hi => hdesc (List.infix_cons hi))]
    rfl

/-- The first `']'` after a `']'`-free id is the closing bracket. -/
theorem findFirst_rbracket (tid : Str) (h : ']' ∉ tid) :
    findFirst [']'] (tid ++ [']']) = some (tid, []) := by
  induction tid with
  | nil =>
    rw [List.nil_append,
      findFirst_here (by decide) (List.prefix_refl [']'])]
    rfl
  | cons c t ih =>
    have hc : c ≠ ']' := fun hc => h (hc ▸ List.mem_cons_self c t)
    have hnp : ¬ [']'] <+: c :: (t ++ [']']) := by
      intro hp
      rw [List.cons_prefix_cons] at hp
      exact hc hp.1.symm
    rw [List.cons_append, findFirst_cons_of_no_hit hnp,
      ih (fun hm => h (List.mem_cons_of_mem c hm))]
    rfl

/-- Embed-then-parse round-trip: the parser recovers the id embedded by
step 5 whenever the id is `']'`-free and neither the id nor the description
contains the tag opener itself. -/
theorem tag_embed_parse (desc tid : Str)
    (hdesc : ¬ todoistMarker <:+: desc)
    (htid : ¬ todoistMarker <:+: tid)
    (hbr : ']' ∉ tid) :
    parse_todoist_tag (habitica_notes_embed desc tid) = some tid := by
  have hshape : habitica_notes_embed desc tid =
      desc ++ '\n' :: '\n' :: (todoistMarker ++ (tid ++ [']'])) := by
    simp [habitica_notes_embed]
  have hff := findFirst_marker_embed desc (tid ++ [']']) hdesc
  rw [← hshape] at hff
  have hnone : findFirst todoistMarker (tid ++ [']']) = none := by
    rw [findFirst_none_iff todoistMarker_ne_nil]
    intro hi
    exact htid (infix_snoc_barrier rbracket_not_mem_marker todoistMarker_ne_nil hi)
  have houter : pySplit todoistMarker (habitica_notes_embed desc tid) =
      (desc ++ ['\n', '\n']) :: [tid ++ [']']] := by
    rw [pySplit_of_some todoistMarker_ne_nil hff, pySplit_of_none hnone]
  have hinner : pySplit [']'] (tid ++ [']']) = [tid, []] := by
    rw [pySplit_of_some (by decide) (findFirst_rbracket tid hbr)]
    rfl
  rw [parse_todoist_tag, houter]
  simp [hinner]

/-! ## Lemmas about sets and the association map -/

theorem mem_insertS {x y : Str} {s : List Str} :
    y ∈ insertS x s ↔ y = x ∨ y ∈ s := by
  unfold insertS
  split
  · rename_i hx
    constructor
    · exact fun h => Or.inr h
    · rintro (rfl | h) <;> assumption
  · simp [List.mem_cons]

theorem subset_insertS (x : Str) (s : List Str) : s ⊆ insertS x s :=
  fun _ h => mem_insertS.mpr (Or.inr h)

theorem mem_insertS_self (x : Str) (s : List Str) : x ∈ insertS x s :=
  mem_insertS.mpr (Or.inl rfl)

theorem lookupM_mem : ∀ {m : List (Str × Str)} {k v : Str},
    lookupM k m = some v → (k, v) ∈ m := by
  intro m
  induction m with
  | nil => intro k v h; simp [lookupM] at h
  | cons e rest ih =>
    intro k v h
    rw [lookupM] at h
    split at h
    · rename_i he
      injection h with h
      subst h; subst he
      exact List.mem_cons_self _ _
    · exact List.mem_cons_of_mem e (ih h)

theorem lookupM_split : ∀ {m : List (Str × Str)} {k v : Str},
    lookupM k m = some v →
      ∃ L1 L2, m = L1 ++ (k, v) :: L2 ∧ ∀ e ∈ L1, e.1 ≠ k := by
  intro m
  induction m with
  | nil => intro k v h; simp [lookupM] at h
  | cons e rest ih =>
    intro k v h
    rw [lookupM] at h
    split at h
    · rename_i he
      injection h with h
      subst h; subst he
      exact ⟨[], rest, by simp, by simp⟩
    · rename_i he
      obtain ⟨L1, L2, hsplit, hne⟩ := ih h
      refine ⟨e :: L1, L2, by rw [hsplit]; rfl, ?_⟩
      intro f hf
      rcases List.mem_cons.mp hf with rfl | hf
      · exact he
      · exact hne f hf

theorem mem_keysM_setM {k v x : Str} : ∀ {m : List (Str × Str)},
    x ∈ keysM (setM k v m) ↔ x = k ∨ x ∈ keysM m := by
  intro m
  induction m with
  | nil => simp [setM, keysM]
  | cons e rest ih =>
    rw [setM]
    split
    · rename_i he
      subst he
      simp [keysM, List.mem_cons]
    · simp only [keysM, List.map_cons, List.mem_cons] at *
      constructor
      · rintro (h | h)
        · exact Or.inr (Or.inl h)
        · rcases ih.mp h with h | h
          · exact Or.inl h
          · exact Or.inr (Or.inr h)
      · rintro (h | h | h)
        · exact Or.inr (ih.mpr (Or.inl h))
        · exact Or.inl h
        · exact Or.inr (ih.mpr (Or.inr h))

theorem nodup_keysM_setM {k v : Str} : ∀ {m : List (Str × Str)},
    (keysM m).Nodup → (keysM (setM k v m)).Nodup := by
  intro m
  induction m with
  | nil => intro _; simp [setM, keysM]
  | cons e rest ih =>
    intro hnd
    rw [setM]
    split
    · rename_i he
      simp only [keysM, List.map_cons, List.nodup_cons] at hnd ⊢
      exact ⟨he ▸ hnd.1, hnd.2⟩
    · rename_i he
      simp only [keysM, List.map_cons, List.nodup_cons] at hnd ⊢
      refine ⟨?_, ih hnd.2⟩
      intro hmem
      rcases (mem_keysM_setM (m := rest)).mp hmem with h | h
      · exact he h
      · exact hnd.1 h

theorem mem_valuesM_setM {k v x : Str} : ∀ {m : List (Str × Str)},
    x ∈ valuesM (setM k v m) → x = v ∨ x ∈ valuesM m := by
  intro m
  induction m with
  | nil => simp [setM, valuesM]
  | cons e rest ih =>
    intro h
    rw [setM] at h
    split at h
    · simp only [valuesM, List.map_cons, List.mem_cons] at h ⊢
      rcases h with h | h
      · exact Or.inl h
      · exact Or.inr (Or.inr h)
    · simp only [valuesM, List.map_cons, List.mem_cons] at h ⊢
      rcases h with h | h
      · exact Or.inr (Or.inl h)
      · rcases ih h with h | h
        · exact Or.inl h
        · exact Or.inr (Or.inr h)

theorem nodup_valuesM_setM {k v : Str} : ∀ {m : List (Str × Str)},
    v ∉ valuesM m → (valuesM m).Nodup → (valuesM (setM k v m)).Nodup := by
  intro m
  induction m with
  | nil => intro _ _; simp [setM, valuesM]
  | cons e rest ih =>
    intro hv hnd
    have hv' : v ≠ e.2 ∧ v ∉ valuesM rest := by
      simp only [valuesM, List.map_cons, List.mem_cons] at hv
      push_neg at hv
      exact hv
    have hnd' : e.2 ∉ valuesM rest ∧ (valuesM rest).Nodup := by
      simp only [valuesM, List.map_cons, List.nodup_cons] at hnd
      exact hnd
    rw [setM]
    split
    · simp only [valuesM, List.map_cons, List.nodup_cons]
      exact ⟨hv'.2, hnd'.2⟩
    · simp only [valuesM, List.map_cons, List.nodup_cons]
      refine ⟨?_, ih hv'.2 hnd'.2⟩
      intro hmem
      rcases mem_valuesM_setM hmem with h | h
      · exact hv'.1 h.symm
      · exact hnd'.1 h

theorem mem_valuesM_of_mem {k v : Str} {m : List (Str × Str)}
    (h : (k, v) ∈ m) : v ∈ valuesM m := by
  simp only [valuesM, List.mem_map]
  exact ⟨(k, v), h, rfl⟩

theorem mem_keysM_of_mem {k v : Str} {m : List (Str × Str)}
    (h : (k, v) ∈ m) : k ∈ keysM m := by
  simp only [keysM, List.mem_map]
  exact ⟨(k, v), h, rfl⟩

theorem valuesM_nodup_key_eq : ∀ {m : List (Str × Str)},
    (valuesM m).Nodup → ∀ {k k' v : Str}, (k, v) ∈ m → (k', v) ∈ m → k = k' := by
  intro m
  induction m with
  | nil => intro _ k k' v h; simp at h
  | cons e rest ih =>
    intro hnd k k' v h h'
    have hnd' : e.2 ∉ valuesM rest ∧ (valuesM rest).Nodup := by
      simp only [valuesM, List.map_cons, List.nodup_cons] at hnd
      exact hnd
    rcases List.mem_cons.mp h with he | h
    · rcases List.mem_cons.mp h' with he' | h'
      · have heq : (k, v) = (k', v) := he.trans he'.symm
        injection heq with h1 _
      · exact absurd (by rw [← he]; exact mem_valuesM_of_mem h') hnd'.1
    · rcases List.mem_cons.mp h' with he' | h'
      · exact absurd (by rw [← he']; exact mem_valuesM_of_mem h) hnd'.1
      · exact ih hnd'.2 h h'

/-! ## Shape lemmas for the step-3 loop bodies -/

/-- Every outcome of one src step-3 iteration: no action, a scoring call on
the entry's Habitica id (only when the entry's Todoist id is unprocessed),
or a delete call; each only inserts into the state's sets. -/
theorem step3SrcEntry_shape (env : Env) (w : World)
    (byId : Str → Option TodoistTask) (act : List Str) (s : S3)
    (e : Str × Str) :
    (step3SrcEntry env w byId act s e = s) ∨
    (e.1 ∉ s.pt ∧ step3SrcEntry env w byId act s e =
      { pt := if complete_habitica_task env w e.2 then insertS e.1 s.pt else s.pt,
        ph := if complete_habitica_task env w e.2 then insertS e.2 s.ph else s.ph,
        removeIds := insertS e.1 s.removeIds,
        trace := s.trace ++ [.completeHabitica e.2] }) ∨
    (step3SrcEntry env w byId act s e =
      { pt := s.pt, ph := s.ph, removeIds := insertS e.1 s.removeIds,
        trace := s.trace ++ [.deleteHabitica e.2] }) := by
  unfold step3SrcEntry
  cases byId e.1 with
  | none =>
    by_cases hpt : e.1 ∈ s.pt
    · left; simp [hpt]
    · right; right; simp [hpt]
  | some tk =>
    by_cases hc : tk.is_completed = true
    · by_cases hpt : e.1 ∈ s.pt
      · left; simp [hc, hpt]
      · right; left
        refine ⟨hpt, ?_⟩
        by_cases hok : complete_habitica_task env w e.2 = true
        · simp [hc, hpt, hok]
        · simp [hc, hpt, hok]
    · by_cases ha : e.1 ∈ act
      · left; simp [hc, ha]
      · right; right; simp [hc, ha]

/-- Every outcome of one online step-3 iteration: no action, a scoring call
(completed branch or vanished branch, both only when the entry's Todoist id
is unprocessed), or a delete call (which, in this variant, may mark the
Habitica id processed). -/
theorem step3OnlineEntry_shape (env : Env) (w : World)
    (byId : Str → Option TodoistTask) (act : List Str) (s : S3)
    (e : Str × Str) :
    (step3OnlineEntry env w byId act s e = s) ∨
    (e.1 ∉ s.pt ∧ step3OnlineEntry env w byId act s e =
      { pt := if complete_habitica_task env w e.2 then insertS e.1 s.pt else s.pt,
        ph := if complete_habitica_task env w e.2 then insertS e.2 s.ph else s.ph,
        removeIds := insertS e.1 s.removeIds,
        trace := s.trace ++ [.completeHabitica e.2] }) ∨
    (step3OnlineEntry env w byId act s e =
      { pt := s.pt,
        ph := if delete_habitica_task env w e.2 then insertS e.2 s.ph else s.ph,
        removeIds := insertS e.1 s.removeIds,
        trace := s.trace ++ [.deleteHabitica e.2] }) := by
  unfold step3OnlineEntry
  cases byId e.1 with
  | none =>
    by_cases hpt : e.1 ∈ s.pt
    · left; simp [hpt]
    · right; left
      refine ⟨hpt, ?_⟩
      by_cases hok : complete_habitica_task env w e.2 = true
      · simp [hpt, hok]
      · simp [hpt, hok]
  | some tk =>
    by_cases hc : tk.is_completed = true
    · by_cases hpt : e.1 ∈ s.pt
      · left; simp [hc, hpt]
      · right; left
        refine ⟨hpt, ?_⟩
        by_cases hok : complete_habitica_task env w e.2 = true
        · simp [hc, hpt, hok]
        · simp [hc, hpt, hok]
    · by_cases ha : e.1 ∈ act
      · left; simp [hc, ha]
      · right; right
        by_cases hok : delete_habitica_task env w e.2 = true
        · simp [hc, ha, hok]
        · simp [hc, ha, hok]

/-- The completed branch, explicitly (identical in both variants; stated for
the src entry). -/
theorem step3SrcEntry_completed (env : Env) (w : World)
    (byId : Str → Option TodoistTask) (act : List Str) (s : S3)
    {tid mid : Str} {tk : TodoistTask} (hby : byId tid = some tk)
    (hc : tk.is_completed = true) (hpt : tid ∉ s.pt) :
    step3SrcEntry env w byId act s (tid, mid) =
      { pt := if complete_habitica_task env w mid then insertS tid s.pt else s.pt,
        ph := if complete_habitica_task env w mid then insertS mid s.ph else s.ph,
        removeIds := insertS tid s.removeIds,
        trace := s.trace ++ [.completeHabitica mid] } := by
  unfold step3SrcEntry
  rw [hby]
  by_cases hok : complete_habitica_task env w mid = true
  · simp [hc, hpt, hok]
  · simp [hc, hpt, hok]

/-- The completed branch of the online entry (same as the src entry). -/
theorem step3OnlineEntry_completed (env : Env) (w : World)
    (byId : Str → Option TodoistTask) (act : List Str) (s : S3)
    {tid mid : Str} {tk : TodoistTask} (hby : byId tid = some tk)
    (hc : tk.is_completed = true) (hpt : tid ∉ s.pt) :
    step3OnlineEntry env w byId act s (tid, mid) =
      { pt := if complete_habitica_task env w mid then insertS tid s.pt else s.pt,
        ph := if complete_habitica_task env w mid then insertS mid s.ph else s.ph,
        removeIds := insertS tid s.removeIds,
        trace := s.trace ++ [.completeHabitica mid] } := by
  unfold step3OnlineEntry
  rw [hby]
  by_cases hok : complete_habitica_task env w mid = true
  · simp [hc, hpt, hok]
  · simp [hc, hpt, hok]

/-- The vanished branch of the src entry: a delete call, no set change. -/
theorem step3SrcEntry_vanish (env : Env) (w : World)
    (byId : Str → Option TodoistTask) (act : List Str) (s : S3)
    {tid mid : Str} (hby : byId tid = none) (hpt : tid ∉ s.pt) :
    step3SrcEntry env w byId act s (tid, mid) =
      { pt := s.pt, ph := s.ph, removeIds := insertS tid s.removeIds,
        trace := s.trace ++ [.deleteHabitica mid] } := by
  unfold step3SrcEntry
  rw [hby]
  simp [hpt]

/-- The vanished branch of the online entry: a scoring (complete) call. -/
theorem step3OnlineEntry_vanish (env : Env) (w : World)
    (byId : Str → Option TodoistTask) (act : List Str) (s : S3)
    {tid mid : Str} (hby : byId tid = none) (hpt : tid ∉ s.pt) :
    step3OnlineEntry env w byId act s (tid, mid) =
      { pt := if complete_habitica_task env w mid then insertS tid s.pt else s.pt,
        ph := if complete_habitica_task env w mid then insertS mid s.ph else s.ph,
        removeIds := insertS tid s.removeIds,
        trace := s.trace ++ [.completeHabitica mid] } := by
  unfold step3OnlineEntry
  rw [hby]
  by_cases hok : complete_habitica_task env w mid = true
  · simp [hpt, hok]
  · simp [hpt, hok]

/-! ## Generic facts about the step-3 fold -/

/-- The common per-entry behaviour of both step-3 loop bodies: each set can
only be kept or grown by the entry's own ids, and each iteration emits at
most one scoring/delete call on the entry's Habitica id, a scoring call only
when the entry's Todoist id is unprocessed. -/
def Step3Entry (f : S3 → Str × Str → S3) : Prop :=
  ∀ s e,
    ((f s e).pt = s.pt ∨ (f s e).pt = insertS e.1 s.pt) ∧
    ((f s e).ph = s.ph ∨ (f s e).ph = insertS e.2 s.ph) ∧
    ((f s e).removeIds = s.removeIds ∨
      (f s e).removeIds = insertS e.1 s.removeIds) ∧
    ((f s e).trace = s.trace ∨
      ((f s e).trace = s.trace ++ [.completeHabitica e.2] ∧ e.1 ∉ s.pt) ∨
      (f s e).trace = s.trace ++ [.deleteHabitica e.2])

theorem step3Src_entryProp (env : Env) (w : World)
    (byId : Str → Option TodoistTask) (act : List Str) :
    Step3Entry (step3SrcEntry env w byId act) := by
  intro s e
  rcases step3SrcEntry_shape env w byId act s e with h | ⟨hpt, h⟩ | h <;>
    rw [h] <;> constructor
  · exact Or.inl rfl
  · exact ⟨Or.inl rfl, Or.inl rfl, Or.inl rfl⟩
  · split <;> simp
  · refine ⟨?_, Or.inr rfl, Or.inr (Or.inl ⟨rfl, hpt⟩)⟩
    split <;> simp
  · exact Or.inl rfl
  · exact ⟨Or.inl rfl, Or.inr rfl, Or.inr (Or.inr rfl)⟩

theorem step3Online_entryProp (env : Env) (w : World)
    (byId : Str → Option TodoistTask) (act : List Str) :
    Step3Entry (step3OnlineEntry env w byId act) := by
  intro s e
  rcases step3OnlineEntry_shape env w byId act s e with h | ⟨hpt, h⟩ | h <;>
    rw [h] <;> constructor
  · exact Or.inl rfl
  · exact ⟨Or.inl rfl, Or.inl rfl, Or.inl rfl⟩
  · split <;> simp
  · refine ⟨?_, Or.inr rfl, Or.inr (Or.inl ⟨rfl, hpt⟩)⟩
    split <;> simp
  · exact Or.inl rfl
  · refine ⟨?_, Or.inr rfl, Or.inr (Or.inr rfl)⟩
    split <;> simp

theorem fold3_pt_mono {f : S3 → Str × Str → S3} (hf : Step3Entry f) :
    ∀ (L : List (Str × Str)) (s : S3), s.pt ⊆ (L.foldl f s).pt := by
  intro L
  induction L with
  | nil => intro s; exact fun _ h => h
  | cons e rest ih =>
    intro s
    rw [List.foldl_cons]
    refine fun x hx => ih (f s e) ?_
    rcases (hf s e).1 with h | h
    · rw [h]; exact hx
    · rw [h]; exact subset_insertS _ _ hx

theorem fold3_ph_mono {f : S3 → Str × Str → S3} (hf : Step3Entry f) :
    ∀ (L : List (Str × Str)) (s : S3), s.ph ⊆ (L.foldl f s).ph := by
  intro L
  induction L with
  | nil => intro s; exact fun _ h => h
  | cons e rest ih =>
    intro s
    rw [List.foldl_cons]
    refine fun x hx => ih (f s e) ?_
    rcases (hf s e).2.1 with h | h
    · rw [h]; exact hx
    · rw [h]; exact subset_insertS _ _ hx

theorem fold3_rm_mono {f : S3 → Str × Str → S3} (hf : Step3Entry f) :
    ∀ (L : List (Str × Str)) (s : S3),
      s.removeIds ⊆ (L.foldl f s).removeIds := by
  intro L
  induction L with
  | nil => intro s; exact fun _ h => h
  | cons e rest ih =>
    intro s
    rw [List.foldl_cons]
    refine fun x hx => ih (f s e) ?_
    rcases (hf s e).2.2.1 with h | h
    · rw [h]; exact hx
    · rw [h]; exact subset_insertS _ _ hx

theorem fold3_pt_new {f : S3 → Str × Str → S3} (hf : Step3Entry f) :
    ∀ (L : List (Str × Str)) (s : S3) (x : Str),
      x ∈ (L.foldl f s).pt → x ∈ s.pt ∨ ∃ e ∈ L, x = e.1 := by
  intro L
  induction L with
  | nil => intro s x hx; exact Or.inl hx
  | cons e rest ih =>
    intro s x hx
    rw [List.foldl_cons] at hx
    rcases ih (f s e) x hx with h | ⟨e', he', hx'⟩
    · rcases (hf s e).1 with hp | hp
      · rw [hp] at h; exact Or.inl h
      · rw [hp] at h
        rcases mem_insertS.mp h with h | h
        · exact Or.inr ⟨e, List.mem_cons_self e rest, h⟩
        · exact Or.inl h
    · exact Or.inr ⟨e', List.mem_cons_of_mem e he', hx'⟩

theorem fold3_ph_new {f : S3 → Str × Str → S3} (hf : Step3Entry f) :
    ∀ (L : List (Str × Str)) (s : S3) (x : Str),
      x ∈ (L.foldl f s).ph → x ∈ s.ph ∨ ∃ e ∈ L, x = e.2 := by
  intro L
  induction L with
  | nil => intro s x hx; exact Or.inl hx
  | cons e rest ih =>
    intro s x hx
    rw [List.foldl_cons] at hx
    rcases ih (f s e) x hx with h | ⟨e', he', hx'⟩
    · rcases (hf s e).2.1 with hp | hp
      · rw [hp] at h; exact Or.inl h
      · rw [hp] at h
        rcases mem_insertS.mp h with h | h
        · exact Or.inr ⟨e, List.mem_cons_self e rest, h⟩
        · exact Or.inl h
    · exact Or.inr ⟨e', List.mem_cons_of_mem e he', hx'⟩

theorem fold3_pt_not_mem {f : S3 → Str × Str → S3} (hf : Step3Entry f)
    {L : List (Str × Str)} {s : S3} {x : Str}
    (hL : ∀ e ∈ L, e.1 ≠ x) (hx : x ∉ s.pt) : x ∉ (L.foldl f s).pt := by
  intro hmem
  rcases fold3_pt_new hf L s x hmem with h | ⟨e, he, hx'⟩
  · exact hx h
  · exact hL e he hx'.symm

theorem fold3_ph_not_mem {f : S3 → Str × Str → S3} (hf : Step3Entry f)
    {L : List (Str × Str)} {s : S3} {x : Str}
    (hL : ∀ e ∈ L, e.2 ≠ x) (hx : x ∉ s.ph) : x ∉ (L.foldl f s).ph := by
  intro hmem
  rcases fold3_ph_new hf L s x hmem with h | ⟨e, he, hx'⟩
  · exact hx h
  · exact hL e he hx'.symm

theorem fold3_count_stable {f : S3 → Str × Str → S3} (hf : Step3Entry f)
    (a : Action) :
    ∀ (L : List (Str × Str)) (s : S3),
      (∀ e ∈ L, a ≠ .completeHabitica e.2 ∧ a ≠ .deleteHabitica e.2) →
      ((L.foldl f s).trace).count a = s.trace.count a := by
  intro L
  induction L with
  | nil => intro s _; rfl
  | cons e rest ih =>
    intro s hL
    rw [List.foldl_cons,
      ih (f s e) (fun e' he' => hL e' (List.mem_cons_of_mem e he'))]
    have hne := hL e (List.mem_cons_self e rest)
    rcases (hf s e).2.2.2 with h | ⟨h, _⟩ | h <;> rw [h]
    · rw [List.count_append]
      simp [List.count_eq_zero, hne.1]
    · rw [List.count_append]
      simp [List.count_eq_zero, hne.2]

theorem fold3_complete_count_guard {f : S3 → Str × Str → S3}
    (hf : Step3Entry f) {mid tid : Str} :
    ∀ (L : List (Str × Str)) (s : S3),
      (∀ e ∈ L, e.2 = mid → e.1 = tid) → tid ∈ s.pt →
      ((L.foldl f s).trace).count (.completeHabitica mid) =
        s.trace.count (.completeHabitica mid) := by
  intro L
  induction L with
  | nil => intro s _ _; rfl
  | cons e rest ih =>
    intro s hL htid
    have htid' : tid ∈ (f s e).pt := by
      rcases (hf s e).1 with h | h
      · rw [h]; exact htid
      · rw [h]; exact subset_insertS _ _ htid
    rw [List.foldl_cons,
      ih (f s e) (fun e' he' => hL e' (List.mem_cons_of_mem e he')) htid']
    rcases (hf s e).2.2.2 with h | ⟨h, hpt⟩ | h <;> rw [h]
    · rw [List.count_append]
      have : mid ≠ e.2 := fun hv =>
        hpt ((hL e (List.mem_cons_self e rest) hv.symm) ▸ htid)
      simp [List.count_eq_zero, this]
    · rw [List.count_append]
      simp [List.count_eq_zero]

theorem count_append_singleton_self (t : List Action) (a : Action) :
    (t ++ [a]).count a = t.count a + 1 := by
  rw [List.count_append]
  simp

theorem count_append_singleton_ne (t : List Action) {a b : Action}
    (h : a ≠ b) : (t ++ [b]).count a = t.count a := by
  rw [List.count_append]
  simp [List.count_eq_zero, h]

/-- Running the step-3 loop over a map whose only entry with Habitica id
`mid` is `(tid, mid)`, where the loop body scores `mid` at that entry
(`tid` unprocessed on arrival): exactly one more scoring call on `mid` is
emitted, `tid` is scheduled for removal, and on success both ids end up in
the processed sets. -/
theorem fold3_scenario_complete {f : S3 → Str × Str → S3}
    (hf : Step3Entry f) {tid mid : Str} {ok : Bool}
    {L1 L2 : List (Str × Str)} {s0 : S3}
    (hstep : ∀ s : S3, tid ∉ s.pt → f s (tid, mid) =
      { pt := if ok then insertS tid s.pt else s.pt,
        ph := if ok then insertS mid s.ph else s.ph,
        removeIds := insertS tid s.removeIds,
        trace := s.trace ++ [.completeHabitica mid] })
    (hL1k : ∀ e ∈ L1, e.1 ≠ tid) (hL1v : ∀ e ∈ L1, e.2 ≠ mid)
    (hL2v : ∀ e ∈ L2, e.2 ≠ mid) (hpt0 : tid ∉ s0.pt) :
    (((L1 ++ (tid, mid) :: L2).foldl f s0).trace).count
        (.completeHabitica mid) =
      s0.trace.count (.completeHabitica mid) + 1 ∧
    tid ∈ ((L1 ++ (tid, mid) :: L2).foldl f s0).removeIds ∧
    (ok = true → tid ∈ ((L1 ++ (tid, mid) :: L2).foldl f s0).pt ∧
      mid ∈ ((L1 ++ (tid, mid) :: L2).foldl f s0).ph) := by
  rw [List.foldl_append, List.foldl_cons]
  set s1 := L1.foldl f s0 with hs1
  have hpt1 : tid ∉ s1.pt := fold3_pt_not_mem hf hL1k hpt0
  have hcount1 : s1.trace.count (.completeHabitica mid) =
      s0.trace.count (.completeHabitica mid) := by
    apply fold3_count_stable hf _ L1 s0
    intro e he
    exact ⟨by simp [hL1v e he, Ne.symm (hL1v e he)], by simp⟩
  rw [hstep s1 hpt1]
  set s2 : S3 :=
    { pt := if ok then insertS tid s1.pt else s1.pt,
      ph := if ok then insertS mid s1.ph else s1.ph,
      removeIds := insertS tid s1.removeIds,
      trace := s1.trace ++ [.completeHabitica mid] } with hs2
  have hcount2 : s2.trace.count (.completeHabitica mid) =
      s0.trace.count (.completeHabitica mid) + 1 := by
    rw [hs2]
    simp only
    rw [count_append_singleton_self, hcount1]
  refine ⟨?_, ?_, ?_⟩
  · rw [fold3_count_stable hf _ L2 s2 ?_, hcount2]
    intro e he
    exact ⟨by simp [hL2v e he, Ne.symm (hL2v e he)], by simp⟩
  · apply fold3_rm_mono hf L2 s2
    rw [hs2]
    exact mem_insertS_self tid s1.removeIds
  · intro hok
    constructor
    · apply fold3_pt_mono hf L2 s2
      rw [hs2]
      simp only [hok, if_true]
      exact mem_insertS_self tid s1.pt
    · apply fold3_ph_mono hf L2 s2
      rw [hs2]
      simp only [hok, if_true]
      exact mem_insertS_self mid s1.ph

/-- Running the src step-3 loop over a map whose only entry with Habitica id
`mid` is `(tid, mid)`, where the loop body deletes `mid` at that entry:
exactly one more delete call and no scoring call on `mid` are emitted, and
`tid` is scheduled for removal. -/
theorem fold3_scenario_vanish {f : S3 → Str × Str → S3}
    (hf : Step3Entry f) {tid mid : Str}
    {L1 L2 : List (Str × Str)} {s0 : S3}
    (hstep : ∀ s : S3, tid ∉ s.pt → f s (tid, mid) =
      { pt := s.pt, ph := s.ph, removeIds := insertS tid s.removeIds,
        trace := s.trace ++ [.deleteHabitica mid] })
    (hL1k : ∀ e ∈ L1, e.1 ≠ tid) (hL1v : ∀ e ∈ L1, e.2 ≠ mid)
    (hL2v : ∀ e ∈ L2, e.2 ≠ mid) (hpt0 : tid ∉ s0.pt) :
    (((L1 ++ (tid, mid) :: L2).foldl f s0).trace).count
        (.deleteHabitica mid) =
      s0.trace.count (.deleteHabitica mid) + 1 ∧
    (((L1 ++ (tid, mid) :: L2).foldl f s0).trace).count
        (.completeHabitica mid) =
      s0.trace.count (.completeHabitica mid) ∧
    tid ∈ ((L1 ++ (tid, mid) :: L2).foldl f s0).removeIds := by
  rw [List.foldl_append, List.foldl_cons]
  set s1 := L1.foldl f s0 with hs1
  have hpt1 : tid ∉ s1.pt := fold3_pt_not_mem hf hL1k hpt0
  have hcountD1 : s1.trace.count (.deleteHabitica mid) =
      s0.trace.count (.deleteHabitica mid) := by
    apply fold3_count_stable hf _ L1 s0
    intro e he
    exact ⟨by simp, by simp [hL1v e he, Ne.symm (hL1v e he)]⟩
  have hcountC1 : s1.trace.count (.completeHabitica mid) =
      s0.trace.count (.completeHabitica mid) := by
    apply fold3_count_stable hf _ L1 s0
    intro e he
    exact ⟨by simp [hL1v e he, Ne.symm (hL1v e he)], by simp⟩
  rw [hstep s1 hpt1]
  set s2 : S3 :=
    { pt := s1.pt, ph := s1.ph, removeIds := insertS tid s1.removeIds,
      trace := s1.trace ++ [.deleteHabitica mid] } with hs2
  refine ⟨?_, ?_, ?_⟩
  · rw [fold3_count_stable hf _ L2 s2 ?_]
    · rw [hs2]
      simp only
      rw [count_append_singleton_self, hcountD1]
    · intro e he
      exact ⟨by simp, by simp [hL2v e he, Ne.symm (hL2v e he)]⟩
  · rw [fold3_count_stable hf _ L2 s2 ?_]
    · rw [hs2]
      simp only
      rw [count_append_singleton_ne _ (by simp), hcountC1]
    · intro e he
      exact ⟨by simp [hL2v e he, Ne.symm (hL2v e he)], by simp⟩
  · apply fold3_rm_mono hf L2 s2
    rw [hs2]
    exact mem_insertS_self tid s1.removeIds

/-! ## Shape lemmas for the step-4 loop body -/

/-- Every outcome of one step-4 iteration: no action; a close call on the
resolved Todoist id (only for an unprocessed resolved id, with all three
state extensions conditional on success); or marking the Habitica id
processed without any call. -/
theorem step4Entry_shape (w : World) (m1 : List (Str × Str))
    (tagged : List Str) (s : S4) (ht : HabiticaTask) :
    (step4Entry w m1 tagged s ht = s) ∨
    (∃ t, resolveTid m1 ht = some t ∧ t ∉ s.pt ∧
      step4Entry w m1 tagged s ht =
        { pt := if complete_todoist_task w t then insertS t s.pt else s.pt,
          ph := if complete_todoist_task w t then insertS ht.id s.ph else s.ph,
          removeIds := if complete_todoist_task w t then insertS t s.removeIds
            else s.removeIds,
          trace := s.trace ++ [.closeTodoist t] }) ∨
    (step4Entry w m1 tagged s ht = { s with ph := insertS ht.id s.ph }) := by
  unfold step4Entry
  by_cases hg : (ht.id ∈ tagged ∨ ht.id ∈ valuesM m1) ∧ ht.completed = true ∧
      ht.id ∉ s.ph
  · cases hres : resolveTid m1 ht with
    | none => right; right; simp [hg, hres]
    | some t =>
      by_cases htne : t ≠ []
      · by_cases hpt : t ∈ s.pt
        · right; right; simp [hg, hres, htne, hpt]
        · right; left
          refine ⟨t, rfl, hpt, ?_⟩
          by_cases hok : complete_todoist_task w t = true
          · simp [hg, hres, htne, hpt, hok]
          · simp [hg, hres, htne, hpt, hok]
      · right; right; simp [hg, hres, htne]
  · left; simp [hg]

/-- The close branch, explicitly. -/
theorem step4Entry_close (w : World) (m1 : List (Str × Str))
    (tagged : List Str) (s : S4) (ht : HabiticaTask) {t : Str}
    (hlink : ht.id ∈ tagged ∨ ht.id ∈ valuesM m1)
    (hcomp : ht.completed = true) (hph : ht.id ∉ s.ph)
    (hres : resolveTid m1 ht = some t) (htne : t ≠ []) (hpt : t ∉ s.pt) :
    step4Entry w m1 tagged s ht =
      { pt := if complete_todoist_task w t then insertS t s.pt else s.pt,
        ph := if complete_todoist_task w t then insertS ht.id s.ph else s.ph,
        removeIds := if complete_todoist_task w t then insertS t s.removeIds
          else s.removeIds,
        trace := s.trace ++ [.closeTodoist t] } := by
  unfold step4Entry
  by_cases hok : complete_todoist_task w t = true
  · simp [hlink, hcomp, hph, hres, htne, hpt, hok]
  · simp [hlink, hcomp, hph, hres, htne, hpt, hok]

/-- The common per-iteration behaviour of the step-4 loop. -/
def Step4Entry (f : S4 → HabiticaTask → S4) (m1 : List (Str × Str)) : Prop :=
  ∀ s ht,
    ((f s ht).pt = s.pt ∨
      ∃ t, resolveTid m1 ht = some t ∧ (f s ht).pt = insertS t s.pt) ∧
    ((f s ht).ph = s.ph ∨ (f s ht).ph = insertS ht.id s.ph) ∧
    ((f s ht).removeIds = s.removeIds ∨
      ∃ t, resolveTid m1 ht = some t ∧
        (f s ht).removeIds = insertS t s.removeIds) ∧
    ((f s ht).trace = s.trace ∨
      ∃ t, resolveTid m1 ht = some t ∧ t ∉ s.pt ∧
        (f s ht).trace = s.trace ++ [.closeTodoist t])

theorem step4_entryProp (w : World) (m1 : List (Str × Str))
    (tagged : List Str) : Step4Entry (step4Entry w m1 tagged) m1 := by
  intro s ht
  rcases step4Entry_shape w m1 tagged s ht with h | ⟨t, hres, hpt, h⟩ | h <;>
    rw [h]
  · exact ⟨Or.inl rfl, Or.inl rfl, Or.inl rfl, Or.inl rfl⟩
  · refine ⟨?_, ?_, ?_, Or.inr ⟨t, hres, hpt, rfl⟩⟩
    · by_cases hok : complete_todoist_task w t = true
      · simp only [hok, if_true]
        exact Or.inr ⟨t, hres, rfl⟩
      · simp only [hok, if_false]
        exact Or.inl rfl
    · split
      · exact Or.inr rfl
      · exact Or.inl rfl
    · by_cases hok : complete_todoist_task w t = true
      · simp only [hok, if_true]
        exact Or.inr ⟨t, hres, rfl⟩
      · simp only [hok, if_false]
        exact Or.inl rfl
  · exact ⟨Or.inl rfl, Or.inr rfl, Or.inl rfl, Or.inl rfl⟩

theorem fold4_pt_mono {f : S4 → HabiticaTask → S4} {m1 : List (Str × Str)}
    (hf : Step4Entry f m1) :
    ∀ (H : List HabiticaTask) (s : S4), s.pt ⊆ (H.foldl f s).pt := by
  intro H
  induction H with
  | nil => intro s; exact fun _ h => h
  | cons ht rest ih =>
    intro s
    rw [List.foldl_cons]
    refine fun x hx => ih (f s ht) ?_
    rcases (hf s ht).1 with h | ⟨t, _, h⟩
    · rw [h]; exact hx
    · rw [h]; exact subset_insertS _ _ hx

theorem fold4_ph_mono {f : S4 → HabiticaTask → S4} {m1 : List (Str × Str)}
    (hf : Step4Entry f m1) :
    ∀ (H : List HabiticaTask) (s : S4), s.ph ⊆ (H.foldl f s).ph := by
  intro H
  induction H with
  | nil => intro s; exact fun _ h => h
  | cons ht rest ih =>
    intro s
    rw [List.foldl_cons]
    refine fun x hx => ih (f s ht) ?_
    rcases (hf s ht).2.1 with h | h
    · rw [h]; exact hx
    · rw [h]; exact subset_insertS _ _ hx

theorem fold4_rm_mono {f : S4 → HabiticaTask → S4} {m1 : List (Str × Str)}
    (hf : Step4Entry f m1) :
    ∀ (H : List HabiticaTask) (s : S4),
      s.removeIds ⊆ (H.foldl f s).removeIds := by
  intro H
  induction H with
  | nil => intro s; exact fun _ h => h
  | cons ht rest ih =>
    intro s
    rw [List.foldl_cons]
    refine fun x hx => ih (f s ht) ?_
    rcases (hf s ht).2.2.1 with h | ⟨t, _, h⟩
    · rw [h]; exact hx
    · rw [h]; exact subset_insertS _ _ hx

theorem fold4_pt_new {f : S4 → HabiticaTask → S4} {m1 : List (Str × Str)}
    (hf : Step4Entry f m1) :
    ∀ (H : List HabiticaTask) (s : S4) (x : Str),
      x ∈ (H.foldl f s).pt →
        x ∈ s.pt ∨ ∃ ht ∈ H, resolveTid m1 ht = some x := by
  intro H
  induction H with
  | nil => intro s x hx; exact Or.inl hx
  | cons ht rest ih =>
    intro s x hx
    rw [List.foldl_cons] at hx
    rcases ih (f s ht) x hx with h | ⟨ht', hht', hx'⟩
    · rcases (hf s ht).1 with hp | ⟨t, hres, hp⟩
      · rw [hp] at h; exact Or.inl h
      · rw [hp] at h
        rcases mem_insertS.mp h with h | h
        · exact Or.inr ⟨ht, List.mem_cons_self ht rest, h ▸ hres⟩
        · exact Or.inl h
    · exact Or.inr ⟨ht', List.mem_cons_of_mem ht hht', hx'⟩

theorem fold4_ph_new {f : S4 → HabiticaTask → S4} {m1 : List (Str × Str)}
    (hf : Step4Entry f m1) :
    ∀ (H : List HabiticaTask) (s : S4) (x : Str),
      x ∈ (H.foldl f s).ph → x ∈ s.ph ∨ ∃ ht ∈ H, x = ht.id := by
  intro H
  induction H with
  | nil => intro s x hx; exact Or.inl hx
  | cons ht rest ih =>
    intro s x hx
    rw [List.foldl_cons] at hx
    rcases ih (f s ht) x hx with h | ⟨ht', hht', hx'⟩
    · rcases (hf s ht).2.1 with hp | hp
      · rw [hp] at h; exact Or.inl h
      · rw [hp] at h
        rcases mem_insertS.mp h with h | h
        · exact Or.inr ⟨ht, List.mem_cons_self ht rest, h⟩
        · exact Or.inl h
    · exact Or.inr ⟨ht', List.mem_cons_of_mem ht hht', hx'⟩

theorem fold4_pt_not_mem {f : S4 → HabiticaTask → S4} {m1 : List (Str × Str)}
    (hf : Step4Entry f m1) {H : List HabiticaTask} {s : S4} {x : Str}
    (hH : ∀ ht ∈ H, resolveTid m1 ht ≠ some x) (hx : x ∉ s.pt) :
    x ∉ (H.foldl f s).pt := by
  intro hmem
  rcases fold4_pt_new hf H s x hmem with h | ⟨ht, hht, hx'⟩
  · exact hx h
  · exact hH ht hht hx'

theorem fold4_ph_not_mem {f : S4 → HabiticaTask → S4} {m1 : List (Str × Str)}
    (hf : Step4Entry f m1) {H : List HabiticaTask} {s : S4} {x : Str}
    (hH : ∀ ht ∈ H, ht.id ≠ x) (hx : x ∉ s.ph) :
    x ∉ (H.foldl f s).ph := by
  intro hmem
  rcases fold4_ph_new hf H s x hmem with h | ⟨ht, hht, hx'⟩
  · exact hx h
  · exact hH ht hht hx'.symm

theorem fold4_count_stable_nonclose {f : S4 → HabiticaTask → S4}
    {m1 : List (Str × Str)} (hf : Step4Entry f m1) {a : Action}
    (ha : ∀ t, a ≠ .closeTodoist t) :
    ∀ (H : List HabiticaTask) (s : S4),
      ((H.foldl f s).trace).count a = s.trace.count a := by
  intro H
  induction H with
  | nil => intro s; rfl
  | cons ht rest ih =>
    intro s
    rw [List.foldl_cons, ih (f s ht)]
    rcases (hf s ht).2.2.2 with h | ⟨t, _, _, h⟩ <;> rw [h]
    exact count_append_singleton_ne _ (ha t)

theorem fold4_count_close_stable_of_ne {f : S4 → HabiticaTask → S4}
    {m1 : List (Str × Str)} (hf : Step4Entry f m1) {tid : Str} :
    ∀ (H : List HabiticaTask) (s : S4),
      (∀ ht ∈ H, resolveTid m1 ht ≠ some tid) →
      ((H.foldl f s).trace).count (.closeTodoist tid) =
        s.trace.count (.closeTodoist tid) := by
  intro H
  induction H with
  | nil => intro s _; rfl
  | cons ht rest ih =>
    intro s hH
    rw [List.foldl_cons,
      ih (f s ht) (fun ht' h => hH ht' (List.mem_cons_of_mem ht h))]
    rcases (hf s ht).2.2.2 with h | ⟨t, hres, _, h⟩ <;> rw [h]
    refine count_append_singleton_ne _ ?_
    intro he
    injection he with he
    exact hH ht (List.mem_cons_self ht rest) (he ▸ hres)

theorem fold4_count_close_stable_of_mem {f : S4 → HabiticaTask → S4}
    {m1 : List (Str × Str)} (hf : Step4Entry f m1) {tid : Str} :
    ∀ (H : List HabiticaTask) (s : S4), tid ∈ s.pt →
      ((H.foldl f s).trace).count (.closeTodoist tid) =
        s.trace.count (.closeTodoist tid) := by
  intro H
  induction H with
  | nil => intro s _; rfl
  | cons ht rest ih =>
    intro s htid
    have htid' : tid ∈ (f s ht).pt := by
      rcases (hf s ht).1 with h | ⟨t, _, h⟩
      · rw [h]; exact htid
      · rw [h]; exact subset_insertS _ _ htid
    rw [List.foldl_cons, ih (f s ht) htid']
    rcases (hf s ht).2.2.2 with h | ⟨t, _, hpt, h⟩ <;> rw [h]
    refine count_append_singleton_ne _ ?_
    intro he
    injection he with he
    exact hpt (he ▸ htid)

/-- Running the step-4 loop over a Habitica snapshot in which `ht0` is the
only task resolving to `T2` (and no other task shares its id): exactly one
more close call on `T2` is emitted, and on success `T2` and `ht0.id` are
marked processed and `T2` is scheduled for removal from the map. -/
theorem fold4_scenario_close (w : World) (m1 : List (Str × Str))
    (tagged : List Str) {ht0 : HabiticaTask} {T2 : Str}
    {H1 H2 : List HabiticaTask} {s0 : S4}
    (hlink : ht0.id ∈ tagged ∨ ht0.id ∈ valuesM m1)
    (hcomp : ht0.completed = true)
    (hres : resolveTid m1 ht0 = some T2) (htne : T2 ≠ [])
    (hH1id : ∀ ht' ∈ H1, ht'.id ≠ ht0.id)
    (hH1res : ∀ ht' ∈ H1, resolveTid m1 ht' ≠ some T2)
    (hH2res : ∀ ht' ∈ H2, resolveTid m1 ht' ≠ some T2)
    (hph0 : ht0.id ∉ s0.ph) (hpt0 : T2 ∉ s0.pt) :
    (((H1 ++ ht0 :: H2).foldl (step4Entry w m1 tagged) s0).trace).count
        (.closeTodoist T2) =
      s0.trace.count (.closeTodoist T2) + 1 ∧
    (complete_todoist_task w T2 = true →
      T2 ∈ ((H1 ++ ht0 :: H2).foldl (step4Entry w m1 tagged) s0).pt ∧
      ht0.id ∈ ((H1 ++ ht0 :: H2).foldl (step4Entry w m1 tagged) s0).ph ∧
      T2 ∈ ((H1 ++ ht0 :: H2).foldl (step4Entry w m1 tagged) s0).removeIds) := by
  have hf := step4_entryProp w m1 tagged
  rw [List.foldl_append, List.foldl_cons]
  set s1 := H1.foldl (step4Entry w m1 tagged) s0 with hs1
  have hpt1 : T2 ∉ s1.pt := fold4_pt_not_mem hf hH1res hpt0
  have hph1 : ht0.id ∉ s1.ph := fold4_ph_not_mem hf hH1id hph0
  have hcount1 : s1.trace.count (.closeTodoist T2) =
      s0.trace.count (.closeTodoist T2) :=
    fold4_count_close_stable_of_ne hf H1 s0 hH1res
  rw [step4Entry_close w m1 tagged s1 ht0 hlink hcomp hph1 hres htne hpt1]
  set s2 : S4 :=
    { pt := if complete_todoist_task w T2 then insertS T2 s1.pt else s1.pt,
      ph := if complete_todoist_task w T2 then insertS ht0.id s1.ph else s1.ph,
      removeIds := if complete_todoist_task w T2 then insertS T2 s1.removeIds
        else s1.removeIds,
      trace := s1.trace ++ [.closeTodoist T2] } with hs2
  refine ⟨?_, ?_⟩
  · rw [fold4_count_close_stable_of_ne hf H2 s2 hH2res, hs2]
    simp only
    rw [count_append_singleton_self, hcount1]
  · intro hok
    refine ⟨?_, ?_, ?_⟩
    · apply fold4_pt_mono hf H2 s2
      rw [hs2]
      simp only [hok, if_true]
      exact mem_insertS_self T2 s1.pt
    · apply fold4_ph_mono hf H2 s2
      rw [hs2]
      simp only [hok, if_true]
      exact mem_insertS_self ht0.id s1.ph
    · apply fold4_rm_mono hf H2 s2
      rw [hs2]
      simp only [hok, if_true]
      exact mem_insertS_self T2 s1.removeIds

/-! ## Lemmas about the step-5 loop -/

theorem lookupM_setM_ne {k x v : Str} (h : x ≠ k) :
    ∀ {m : List (Str × Str)}, lookupM x (setM k v m) = lookupM x m := by
  intro m
  induction m with
  | nil => simp [setM, lookupM, Ne.symm h]
  | cons e rest ih =>
    rw [setM]
    split
    · rename_i he
      rw [lookupM, lookupM, if_neg (fun hx : k = x => h hx.symm),
        if_neg (he ▸ fun hx : k = x => h hx.symm)]
    · rw [lookupM]
      split
      · rename_i he'
        rw [lookupM, if_pos he']
      · rename_i he'
        rw [lookupM, if_neg he']
        exact ih

theorem step5Entry_shape (env : Env) (w : World)
    (s : List (Str × Str) × List Action) (tk : TodoistTask) :
    ((step5Entry env w s tk).1 = s.1 ∨
      ∃ hid, (step5Entry env w s tk).1 = setM tk.id hid s.1) ∧
    ((step5Entry env w s tk).2 = s.2 ∨
      ∃ c n, (step5Entry env w s tk).2 = s.2 ++ [.createHabitica c n]) := by
  unfold step5Entry
  by_cases hg : lookupM tk.id s.1 = none ∧ tk.is_completed = false
  · rw [if_pos hg]
    dsimp only
    cases hcr : create_habitica_task_from_todoist env w tk.content
        (habitica_notes_embed tk.description tk.id) with
    | none =>
      exact ⟨Or.inl rfl,
        Or.inr ⟨tk.content, habitica_notes_embed tk.description tk.id, rfl⟩⟩
    | some hid =>
      by_cases hne : hid ≠ []
      · exact ⟨Or.inr ⟨hid, by simp [hne]⟩,
          Or.inr ⟨tk.content, habitica_notes_embed tk.description tk.id,
            by simp [hne]⟩⟩
      · exact ⟨Or.inl (by simp [hne]),
          Or.inr ⟨tk.content, habitica_notes_embed tk.description tk.id,
            by simp [hne]⟩⟩
  · rw [if_neg hg]
    exact ⟨Or.inl rfl, Or.inl rfl⟩

theorem fold5_count_stable (env : Env) (w : World) {a : Action}
    (ha : ∀ c n, a ≠ .createHabitica c n) :
    ∀ (T : List TodoistTask) (s : List (Str × Str) × List Action),
      ((T.foldl (step5Entry env w) s).2).count a = s.2.count a := by
  intro T
  induction T with
  | nil => intro s; rfl
  | cons tk rest ih =>
    intro s
    rw [List.foldl_cons, ih (step5Entry env w s tk)]
    rcases (step5Entry_shape env w s tk).2 with h | ⟨c, n, h⟩ <;> rw [h]
    exact count_append_singleton_ne _ (ha c n)

theorem fold5_lookup_stable (env : Env) (w : World) {x : Str} :
    ∀ (T : List TodoistTask) (s : List (Str × Str) × List Action),
      (∀ tk ∈ T, tk.id ≠ x) →
      lookupM x (T.foldl (step5Entry env w) s).1 = lookupM x s.1 := by
  intro T
  induction T with
  | nil => intro s _; rfl
  | cons tk rest ih =>
    intro s hT
    rw [List.foldl_cons,
      ih (step5Entry env w s tk) (fun t h => hT t (List.mem_cons_of_mem tk h))]
    rcases (step5Entry_shape env w s tk).1 with h | ⟨hid, h⟩ <;> rw [h]
    exact lookupM_setM_ne (fun he => hT tk (List.mem_cons_self tk rest) he.symm)

/-! ## Lemmas about `removeKeys` and `buildById` -/

theorem lookupM_removeKeys_of_mem {x : Str} {ids : List Str} :
    ∀ {m : List (Str × Str)}, x ∈ ids → lookupM x (removeKeys ids m) = none := by
  intro m hx
  induction m with
  | nil => rfl
  | cons e rest ih =>
    rw [removeKeys, List.filter_cons]
    split
    · rename_i hkeep
      rw [lookupM]
      split
      · rename_i he
        exact absurd (he ▸ hx) (by simpa using hkeep)
      · exact ih
    · exact ih

theorem lookupM_none_removeKeys {x : Str} {ids : List Str} :
    ∀ {m : List (Str × Str)}, lookupM x m = none →
      lookupM x (removeKeys ids m) = none := by
  intro m
  induction m with
  | nil => intro _; rfl
  | cons e rest ih =>
    intro h
    rw [lookupM] at h
    split at h
    · exact absurd h (by simp)
    · rename_i he
      rw [removeKeys, List.filter_cons]
      split
      · rw [lookupM, if_neg he]
        exact ih h
      · exact ih h

theorem buildById_aux_none {tid : Str} :
    ∀ (ts : List TodoistTask) (acc : Option TodoistTask),
      ts.foldl (fun acc t => if t.id = tid then some t else acc) acc = none ↔
        acc = none ∧ ∀ tk ∈ ts, tk.id ≠ tid := by
  intro ts
  induction ts with
  | nil => intro acc; simp
  | cons tk rest ih =>
    intro acc
    rw [List.foldl_cons, ih]
    by_cases he : tk.id = tid
    · simp [he]
    · simp only [he, if_neg he, List.mem_cons]
      constructor
      · rintro ⟨h1, h2⟩
        exact ⟨h1, fun t ht => by
          rcases ht with rfl | ht
          · exact he
          · exact h2 t ht⟩
      · rintro ⟨h1, h2⟩
        exact ⟨h1, fun t ht => h2 t (Or.inr ht)⟩

theorem buildById_none_iff {ts : List TodoistTask} {tid : Str} :
    buildById ts tid = none ↔ ∀ tk ∈ ts, tk.id ≠ tid := by
  unfold buildById
  rw [buildById_aux_none]
  simp

/-! ## Invariants of the reconciled map -/

theorem reconcileStep_fst (acc : List (Str × Str) × List Str)
    (ht : HabiticaTask) :
    (reconcileStep acc ht).1 = acc.1 ∨
      ∃ tid, (reconcileStep acc ht).1 = setM tid ht.id acc.1 := by
  unfold reconcileStep
  by_cases hg : ht.type = todoType ∧ ht.notes ≠ [] ∧ containsMarker ht.notes = true
  · cases hp : parse_todoist_tag ht.notes with
    | none => left; simp [hg, hp]
    | some tid =>
      by_cases hne : tid ≠ []
      · right; exact ⟨tid, by simp [hg, hp, hne]⟩
      · left; simp [hg, hp, hne]
  · left; simp [hg]

theorem reconcileMap_aux_keys_nodup :
    ∀ (hs : List HabiticaTask) (acc : List (Str × Str) × List Str),
      (keysM acc.1).Nodup → (keysM (hs.foldl reconcileStep acc).1).Nodup := by
  intro hs
  induction hs with
  | nil => intro acc h; exact h
  | cons ht rest ih =>
    intro acc h
    rw [List.foldl_cons]
    apply ih
    rcases reconcileStep_fst acc ht with he | ⟨tid, he⟩
    · rw [he]; exact h
    · rw [he]; exact nodup_keysM_setM h

theorem reconcileMap_keys_nodup (hs : List HabiticaTask) :
    (keysM (reconcileMap hs).1).Nodup :=
  reconcileMap_aux_keys_nodup hs ([], []) (by simp [keysM])

theorem reconcileMap_aux_values_nodup :
    ∀ (hs : List HabiticaTask) (acc : List (Str × Str) × List Str),
      (hs.map (·.id)).Nodup →
      (∀ x ∈ valuesM acc.1, x ∉ hs.map (·.id)) →
      (valuesM acc.1).Nodup →
      (valuesM (hs.foldl reconcileStep acc).1).Nodup := by
  intro hs
  induction hs with
  | nil => intro acc _ _ h; exact h
  | cons ht rest ih =>
    intro acc hnd hdisj h
    rw [List.map_cons, List.nodup_cons] at hnd
    rw [List.foldl_cons]
    have hsub : ∀ x ∈ valuesM (reconcileStep acc ht).1,
        x = ht.id ∨ x ∈ valuesM acc.1 := by
      intro x hx
      rcases reconcileStep_fst acc ht with he | ⟨tid, he⟩
      · rw [he] at hx; exact Or.inr hx
      · rw [he] at hx; exact mem_valuesM_setM hx
    apply ih
    · exact hnd.2
    · intro x hx
      rcases hsub x hx with rfl | hx'
      · exact hnd.1
      · intro hmem
        exact hdisj x hx' (List.mem_cons_of_mem _ hmem)
    · rcases reconcileStep_fst acc ht with he | ⟨tid, he⟩
      · rw [he]; exact h
      · rw [he]
        apply nodup_valuesM_setM ?_ h
        intro hmem
        exact hdisj ht.id hmem (List.mem_cons_self _ _)

theorem reconcileMap_values_nodup (hs : List HabiticaTask)
    (h : (hs.map (·.id)).Nodup) : (valuesM (reconcileMap hs).1).Nodup :=
  reconcileMap_aux_values_nodup hs ([], []) h (by simp [valuesM]) (by simp [valuesM])

theorem nodup_middle_not_mem {a : Str} {l1 l2 : List Str}
    (h : (l1 ++ a :: l2).Nodup) : a ∉ l1 ∧ a ∉ l2 := by
  rw [List.nodup_append] at h
  obtain ⟨_, h2, hdisj⟩ := h
  rw [List.nodup_cons] at h2
  exact ⟨fun ha => hdisj ha (List.mem_cons_self a l2), h2.1⟩

/-- A successful lookup in the reconciled map splits it into a unique entry
`(tid, mid)` with no other entry sharing the key, and — when the Habitica
snapshot has duplicate-free ids — no other entry sharing the value. -/
theorem map_decomp_of_lookup {hs : List HabiticaTask} {tid mid : Str}
    (hnd : (hs.map (·.id)).Nodup)
    (hlk : lookupM tid (reconcileMap hs).1 = some mid) :
    ∃ L1 L2, (reconcileMap hs).1 = L1 ++ (tid, mid) :: L2 ∧
      (∀ e ∈ L1, e.1 ≠ tid) ∧ (∀ e ∈ L2, e.1 ≠ tid) ∧
      (∀ e ∈ L1, e.2 ≠ mid) ∧ (∀ e ∈ L2, e.2 ≠ mid) := by
  obtain ⟨L1, L2, hsplit, hL1⟩ := lookupM_split hlk
  have hknd := reconcileMap_keys_nodup hs
  have hvnd := reconcileMap_values_nodup hs hnd
  rw [hsplit] at hknd hvnd
  have hkeys : (L1.map (·.1) ++ tid :: L2.map (·.1)).Nodup := by
    simpa [keysM] using hknd
  have hvals : (L1.map (·.2) ++ mid :: L2.map (·.2)).Nodup := by
    simpa [valuesM] using hvnd
  have hk := nodup_middle_not_mem hkeys
  have hv := nodup_middle_not_mem hvals
  refine ⟨L1, L2, hsplit, hL1, ?_, ?_, ?_⟩
  · intro e he heq
    exact hk.2 (List.mem_map.mpr ⟨e, he, heq⟩)
  · intro e he heq
    exact hv.1 (List.mem_map.mpr ⟨e, he, heq⟩)
  · intro e he heq
    exact hv.2 (List.mem_map.mpr ⟨e, he, heq⟩)

/-! ## Unfolding the two cycles -/

theorem cycle_src_run (env : Env) (w : World) (file : LinkStoreFile)
    (ts : List TodoistTask) (hs : List HabiticaTask)
    (h1 : truthy env.todoistKey = true) (h2 : truthy env.habiticaUser = true)
    (h3 : truthy env.habiticaKey = true) :
    perform_single_sync_cycle env w file ts hs =
      { outcome := some ("Sync complete", 200),
        pt := (srcStage4 env w ts hs (load_processed_state file).1
          (load_processed_state file).2).pt,
        ph := (srcStage4 env w ts hs (load_processed_state file).1
          (load_processed_state file).2).ph,
        map := (srcStage5 env w ts hs (load_processed_state file).1
          (load_processed_state file).2).1,
        trace :=
          (srcStage3 env w ts hs (load_processed_state file).1
            (load_processed_state file).2).trace ++
          (srcStage4 env w ts hs (load_processed_state file).1
            (load_processed_state file).2).trace ++
          (srcStage5 env w ts hs (load_processed_state file).1
            (load_processed_state file).2).2,
        saved := true } := by
  unfold perform_single_sync_cycle
  rcases hload : load_processed_state file with ⟨pt0, ph0⟩
  simp [h1, h2, h3]

theorem cycle_src_noCreds (env : Env) (w : World) (file : LinkStoreFile)
    (ts : List TodoistTask) (hs : List HabiticaTask)
    (h : truthy env.todoistKey = false ∨ truthy env.habiticaUser = false ∨
      truthy env.habiticaKey = false) :
    perform_single_sync_cycle env w file ts hs =
      { outcome := none, pt := (load_processed_state file).1,
        ph := (load_processed_state file).2, map := [], trace := [],
        saved := false } := by
  unfold perform_single_sync_cycle
  rcases hload : load_processed_state file with ⟨pt0, ph0⟩
  rcases h with h | h | h <;> simp [h]

theorem cycle_onl_run (env : Env) (w : World) (file : LinkStoreFile)
    (allTs : List TodoistTask) (today : Str) (hs : List HabiticaTask)
    (h1 : truthy env.todoistKey = true) (h2 : truthy env.habiticaUser = true)
    (h3 : truthy env.habiticaKey = true) :
    perform_single_sync_cycle_online env w file allTs today hs =
      { outcome := some ("Sync complete", 200),
        pt := (onlStage4 env w allTs today hs (load_processed_state file).1
          (load_processed_state file).2).pt,
        ph := (onlStage4 env w allTs today hs (load_processed_state file).1
          (load_processed_state file).2).ph,
        map := (onlStage5 env w allTs today hs (load_processed_state file).1
          (load_processed_state file).2).1,
        trace :=
          (onlStage3 env w allTs today hs (load_processed_state file).1
            (load_processed_state file).2).trace ++
          (onlStage4 env w allTs today hs (load_processed_state file).1
            (load_processed_state file).2).trace ++
          (onlStage5 env w allTs today hs (load_processed_state file).1
            (load_processed_state file).2).2,
        saved := true } := by
  unfold perform_single_sync_cycle_online
  rcases hload : load_processed_state file with ⟨pt0, ph0⟩
  simp [h1, h2, h3]

theorem cycle_onl_noCreds (env : Env) (w : World) (file : LinkStoreFile)
    (allTs : List TodoistTask) (today : Str) (hs : List HabiticaTask)
    (h : truthy env.todoistKey = false ∨ truthy env.habiticaUser = false ∨
      truthy env.habiticaKey = false) :
    perform_single_sync_cycle_online env w file allTs today hs =
      { outcome := none, pt := (load_processed_state file).1,
        ph := (load_processed_state file).2, map := [], trace := [],
        saved := false } := by
  unfold perform_single_sync_cycle_online
  rcases hload : load_processed_state file with ⟨pt0, ph0⟩
  rcases h with h | h | h <;> simp [h]

/-! ## Concrete sample inputs used by the witnesses -/

/-- A fully configured environment. -/
def sampleEnv : Env :=
  { todoistKey := some ['k'], habiticaUser := some ['u'],
    habiticaKey := some ['s'] }

/-- An environment with the Todoist key unset. -/
def sampleEnvNoKey : Env :=
  { todoistKey := none, habiticaUser := some ['u'],
    habiticaKey := some ['s'] }

/-- A remote world in which every call succeeds. -/
def sampleWorld : World :=
  { habiticaScoreResp := fun _ => .ok, habiticaDeleteResp := fun _ => .ok,
    todoistCloseRaises := fun _ => false,
    habiticaCreateResp := fun _ _ => some ['n'] }

/-- A remote world in which the Habitica score call fails with a 500 and a
delete finds the task already gone (404). -/
def sampleWorldFail : World :=
  { habiticaScoreResp := fun _ => .httpError 500,
    habiticaDeleteResp := fun _ => .httpError 404,
    todoistCloseRaises := fun _ => true,
    habiticaCreateResp := fun _ _ => none }

def sampleT1 : Str := ['t', '1']

def sampleH1 : Str := ['h', '1']

/-- A Habitica todo carrying the note tag `[TodoistID:t1]`. -/
def sampleTagged (completed : Bool) : HabiticaTask :=
  { id := sampleH1, text := ['x'], notes := habitica_notes_embed [] sampleT1,
    type := todoType, completed := completed }

/-- A completed Todoist task with id `t1`, due on day `['d']`. -/
def sampleDone : TodoistTask :=
  { id := sampleT1, content := ['c'], description := [],
    is_completed := true, due := some ['d'] }

/-! ## The claims -/

/-- C6: for every state of the Link Store blob — file absent, unreadable, or
containing malformed JSON — `load_processed_state` returns the empty pair of
processed sets (and, being a total function, never raises). -/
theorem claim6_load_tolerates_corruption :
    load_processed_state .absent = ([], []) ∧
    load_processed_state .unreadable = ([], []) ∧
    load_processed_state .malformedJson = ([], []) :=
  ⟨rfl, rfl, rfl⟩

/-- C7: with credentials present, a delete that finds the task already
absent (HTTP 404) returns `true`, and `delete_habitica_task` returns `false`
exactly on a real error: a non-404 HTTP error or a transport failure. -/
theorem claim7_delete_idempotent (env : Env) (w : World) (hid : Str)
    (h2 : truthy env.habiticaUser = true) (h3 : truthy env.habiticaKey = true) :
    (w.habiticaDeleteResp hid = .httpError 404 →
      delete_habitica_task env w hid = true) ∧
    (delete_habitica_task env w hid = false ↔
      (∃ s, w.habiticaDeleteResp hid = .httpError s ∧ s ≠ 404) ∨
        w.habiticaDeleteResp hid = .transportError) := by
  unfold delete_habitica_task
  rw [h2, h3]
  simp only [Bool.and_self, if_true]
  cases hresp : w.habiticaDeleteResp hid with
  | ok => simp
  | transportError => simp
  | httpError s =>
    by_cases h404 : s = 404
    · subst h404
      simp
    · constructor
      · intro h
        injection h with h
        exact absurd h h404
      · simp [h404]

theorem claim7_witness :
    (sampleWorldFail.habiticaDeleteResp sampleH1 = .httpError 404 →
      delete_habitica_task sampleEnv sampleWorldFail sampleH1 = true) ∧
    (delete_habitica_task sampleEnv sampleWorldFail sampleH1 = false ↔
      (∃ s, sampleWorldFail.habiticaDeleteResp sampleH1 = .httpError s ∧
        s ≠ 404) ∨
        sampleWorldFail.habiticaDeleteResp sampleH1 = .transportError) :=
  claim7_delete_idempotent sampleEnv sampleWorldFail sampleH1
    (by decide) (by decide)

/-- C10: if the Todoist API key or either Habitica credential is unset (or
empty, which Python treats the same), both cycle variants return right after
loading the persisted state: `None` outcome, no remote call of any kind, no
state-file write, and the loaded sets untouched. -/
theorem claim10_missing_credentials (env : Env) (w : World)
    (file : LinkStoreFile) (ts allTs : List TodoistTask) (today : Str)
    (hs : List HabiticaTask)
    (h : truthy env.todoistKey = false ∨ truthy env.habiticaUser = false ∨
      truthy env.habiticaKey = false) :
    ((perform_single_sync_cycle env w file ts hs).outcome = none ∧
      (perform_single_sync_cycle env w file ts hs).trace = [] ∧
      (perform_single_sync_cycle env w file ts hs).saved = false ∧
      (perform_single_sync_cycle env w file ts hs).pt =
        (load_processed_state file).1 ∧
      (perform_single_sync_cycle env w file ts hs).ph =
        (load_processed_state file).2) ∧
    ((perform_single_sync_cycle_online env w file allTs today hs).outcome =
        none ∧
      (perform_single_sync_cycle_online env w file allTs today hs).trace =
        [] ∧
      (perform_single_sync_cycle_online env w file allTs today hs).saved =
        false ∧
      (perform_single_sync_cycle_online env w file allTs today hs).pt =
        (load_processed_state file).1 ∧
      (perform_single_sync_cycle_online env w file allTs today hs).ph =
        (load_processed_state file).2) := by
  rw [cycle_src_noCreds env w file ts hs h,
    cycle_onl_noCreds env w file allTs today hs h]
  exact ⟨⟨rfl, rfl, rfl, rfl, rfl⟩, ⟨rfl, rfl, rfl, rfl, rfl⟩⟩

theorem claim10_witness :
    ((perform_single_sync_cycle sampleEnvNoKey sampleWorld
        (.wellFormed [sampleT1] []) [] [sampleTagged false]).outcome = none ∧
      (perform_single_sync_cycle sampleEnvNoKey sampleWorld
        (.wellFormed [sampleT1] []) [] [sampleTagged false]).trace = [] ∧
      (perform_single_sync_cycle sampleEnvNoKey sampleWorld
        (.wellFormed [sampleT1] []) [] [sampleTagged false]).saved = false ∧
      (perform_single_sync_cycle sampleEnvNoKey sampleWorld
        (.wellFormed [sampleT1] []) [] [sampleTagged false]).pt =
        (load_processed_state (.wellFormed [sampleT1] [])).1 ∧
      (perform_single_sync_cycle sampleEnvNoKey sampleWorld
        (.wellFormed [sampleT1] []) [] [sampleTagged false]).ph =
        (load_processed_state (.wellFormed [sampleT1] [])).2) ∧
    ((perform_single_sync_cycle_online sampleEnvNoKey sampleWorld
        (.wellFormed [sampleT1] []) [] ['d'] [sampleTagged false]).outcome =
        none ∧
      (perform_single_sync_cycle_online sampleEnvNoKey sampleWorld
        (.wellFormed [sampleT1] []) [] ['d'] [sampleTagged false]).trace =
        [] ∧
      (perform_single_sync_cycle_online sampleEnvNoKey sampleWorld
        (.wellFormed [sampleT1] []) [] ['d'] [sampleTagged false]).saved =
        false ∧
      (perform_single_sync_cycle_online sampleEnvNoKey sampleWorld
        (.wellFormed [sampleT1] []) [] ['d'] [sampleTagged false]).pt =
        (load_processed_state (.wellFormed [sampleT1] [])).1 ∧
      (perform_single_sync_cycle_online sampleEnvNoKey sampleWorld
        (.wellFormed [sampleT1] []) [] ['d'] [sampleTagged false]).ph =
        (load_processed_state (.wellFormed [sampleT1] [])).2) :=
  claim10_missing_credentials sampleEnvNoKey sampleWorld
    (.wellFormed [sampleT1] []) [] [] ['d'] [sampleTagged false]
    (Or.inl (by decide))

/-- C9: within one full cycle (either variant) the two processed sets only
grow: the sets handed to `save_processed_state` at cycle end contain every
id loaded at cycle start. -/
theorem claim9_processed_sets_monotone (env : Env) (w : World)
    (file : LinkStoreFile) (ts allTs : List TodoistTask) (today : Str)
    (hs : List HabiticaTask) :
    ((load_processed_state file).1 ⊆
        (perform_single_sync_cycle env w file ts hs).pt ∧
      (load_processed_state file).2 ⊆
        (perform_single_sync_cycle env w file ts hs).ph) ∧
    ((load_processed_state file).1 ⊆
        (perform_single_sync_cycle_online env w file allTs today hs).pt ∧
      (load_processed_state file).2 ⊆
        (perform_single_sync_cycle_online env w file allTs today hs).ph) := by
  constructor
  · by_cases h1 : truthy env.todoistKey = true
    · by_cases h2 : truthy env.habiticaUser = true
      · by_cases h3 : truthy env.habiticaKey = true
        · rw [cycle_src_run env w file ts hs h1 h2 h3]
          have hf3 := step3Src_entryProp env w (buildById ts) (ts.map (·.id))
          have hf4 := step4_entryProp w
            (srcMap1 env w ts hs (load_processed_state file).1
              (load_processed_state file).2) (reconcileMap hs).2
          constructor
          · intro x hx
            apply fold4_pt_mono hf4 hs _
            exact fold3_pt_mono hf3 (reconcileMap hs).1 _ hx
          · intro x hx
            apply fold4_ph_mono hf4 hs _
            exact fold3_ph_mono hf3 (reconcileMap hs).1 _ hx
        · rw [cycle_src_noCreds env w file ts hs
            (Or.inr (Or.inr (Bool.not_eq_true _ ▸ h3)))]
          exact ⟨fun _ h => h, fun _ h => h⟩
      · rw [cycle_src_noCreds env w file ts hs
          (Or.inr (Or.inl (Bool.not_eq_true _ ▸ h2)))]
        exact ⟨fun _ h => h, fun _ h => h⟩
    · rw [cycle_src_noCreds env w file ts hs
        (Or.inl (Bool.not_eq_true _ ▸ h1))]
      exact ⟨fun _ h => h, fun _ h => h⟩
  · by_cases h1 : truthy env.todoistKey = true
    · by_cases h2 : truthy env.habiticaUser = true
      · by_cases h3 : truthy env.habiticaKey = true
        · rw [cycle_onl_run env w file allTs today hs h1 h2 h3]
          have hf3 := step3Online_entryProp env w (buildById allTs)
            ((filterDueToday today allTs).map (·.id))
          have hf4 := step4_entryProp w
            (onlMap1 env w allTs today hs (load_processed_state file).1
              (load_processed_state file).2) (reconcileMap hs).2
          constructor
          · intro x hx
            apply fold4_pt_mono hf4 hs _
            exact fold3_pt_mono hf3 (reconcileMap hs).1 _ hx
          · intro x hx
            apply fold4_ph_mono hf4 hs _
            exact fold3_ph_mono hf3 (reconcileMap hs).1 _ hx
        · rw [cycle_onl_noCreds env w file allTs today hs
            (Or.inr (Or.inr (Bool.not_eq_true _ ▸ h3)))]
          exact ⟨fun _ h => h, fun _ h => h⟩
      · rw [cycle_onl_noCreds env w file allTs today hs
          (Or.inr (Or.inl (Bool.not_eq_true _ ▸ h2)))]
        exact ⟨fun _ h => h, fun _ h => h⟩
    · rw [cycle_onl_noCreds env w file allTs today hs
        (Or.inl (Bool.not_eq_true _ ▸ h1))]
      exact ⟨fun _ h => h, fun _ h => h⟩

theorem claim9_witness :
    ((load_processed_state (.wellFormed [sampleT1] [sampleH1])).1 ⊆
        (perform_single_sync_cycle sampleEnv sampleWorld
          (.wellFormed [sampleT1] [sampleH1]) [sampleDone]
          [sampleTagged true]).pt ∧
      (load_processed_state (.wellFormed [sampleT1] [sampleH1])).2 ⊆
        (perform_single_sync_cycle sampleEnv sampleWorld
          (.wellFormed [sampleT1] [sampleH1]) [sampleDone]
          [sampleTagged true]).ph) ∧
    ((load_processed_state (.wellFormed [sampleT1] [sampleH1])).1 ⊆
        (perform_single_sync_cycle_online sampleEnv sampleWorld
          (.wellFormed [sampleT1] [sampleH1]) [sampleDone] ['d']
          [sampleTagged true]).pt ∧
      (load_processed_state (.wellFormed [sampleT1] [sampleH1])).2 ⊆
        (perform_single_sync_cycle_online sampleEnv sampleWorld
          (.wellFormed [sampleT1] [sampleH1]) [sampleDone] ['d']
          [sampleTagged true]).ph) :=
  claim9_processed_sets_monotone sampleEnv sampleWorld
    (.wellFormed [sampleT1] [sampleH1]) [sampleDone] [sampleDone] ['d']
    [sampleTagged true]

/-- C4 (counterexample): an origin id containing no `]` but containing the
tag opener `[TodoistID:` itself is not recovered by the first-occurrence
parser: embedding `a[TodoistID:b` yields notes whose parse returns `a`. -/
theorem claim4_counterexample :
    (']' ∉ (['a'] ++ todoistMarker ++ ['b'])) ∧
    parse_todoist_tag
        (habitica_notes_embed [] (['a'] ++ todoistMarker ++ ['b'])) =
      some ['a'] ∧
    parse_todoist_tag
        (habitica_notes_embed [] (['a'] ++ todoistMarker ++ ['b'])) ≠
      some (['a'] ++ todoistMarker ++ ['b']) := by
  decide

/-- C4 (amended): for every origin id not containing `]` and not containing
the tag opener `[TodoistID:`, and every notes body (description) not
containing the opener, embedding the tag and then parsing the notes with the
first-occurrence, up-to-next-`]` parser recovers exactly the embedded id. -/
theorem claim4_amended_tag_roundtrip (desc tid : Str)
    (hdesc : ¬ todoistMarker <:+: desc)
    (htid : ¬ todoistMarker <:+: tid)
    (hbr : ']' ∉ tid) :
    parse_todoist_tag (habitica_notes_embed desc tid) = some tid :=
  tag_embed_parse desc tid hdesc htid hbr

theorem claim4_witness :
    parse_todoist_tag (habitica_notes_embed ['d', ']', 'e'] ['a', 'b']) =
      some ['a', 'b'] :=
  claim4_amended_tag_roundtrip ['d', ']', 'e'] ['a', 'b']
    (by decide) (by decide) (by decide)

/-- C1 (counterexample): in `main.py`, a mapped Todoist id absent from the
snapshot and unprocessed leads the cycle to issue a *delete* call — and no
complete call — on the mapped Habitica task, refuting "attempts to complete
(not delete)". -/
theorem claim1_counterexample :
    Action.deleteHabitica sampleH1 ∈
      (perform_single_sync_cycle sampleEnv sampleWorld
        (.wellFormed [] []) [] [sampleTagged false]).trace ∧
    Action.completeHabitica sampleH1 ∉
      (perform_single_sync_cycle sampleEnv sampleWorld
        (.wellFormed [] []) [] [sampleTagged false]).trace ∧
    lookupM sampleT1
      (perform_single_sync_cycle sampleEnv sampleWorld
        (.wellFormed [] []) [] [sampleTagged false]).map = none := by
  decide

/-- C1 (amended): for every map entry `(tid, mid)` of the reconciled map
where `tid` does not resolve in the snapshot index and is not
Origin-processed, one cycle of `main.py` issues exactly one **delete** call
(and no complete call) on the Mirror task `mid` and removes the map entry;
the online variant completes instead of deleting in this branch. -/
theorem claim1_amended_vanished_deletes (env : Env) (w : World)
    (file : LinkStoreFile) (ts : List TodoistTask) (hs : List HabiticaTask)
    (tid mid : Str)
    (h1 : truthy env.todoistKey = true) (h2 : truthy env.habiticaUser = true)
    (h3 : truthy env.habiticaKey = true)
    (hnd : (hs.map (·.id)).Nodup)
    (hlk : lookupM tid (reconcileMap hs).1 = some mid)
    (hby : buildById ts tid = none)
    (hpt0 : tid ∉ (load_processed_state file).1) :
    ((perform_single_sync_cycle env w file ts hs).trace).count
        (.deleteHabitica mid) = 1 ∧
    ((perform_single_sync_cycle env w file ts hs).trace).count
        (.completeHabitica mid) = 0 ∧
    lookupM tid (perform_single_sync_cycle env w file ts hs).map = none := by
  rw [cycle_src_run env w file ts hs h1 h2 h3]
  obtain ⟨L1, L2, hsplit, hk1, hk2, hv1, hv2⟩ := map_decomp_of_lookup hnd hlk
  have hf3 := step3Src_entryProp env w (buildById ts) (ts.map (·.id))
  set pt0 := (load_processed_state file).1 with hpt0def
  set ph0 := (load_processed_state file).2 with hph0def
  have hstage3 : srcStage3 env w ts hs pt0 ph0 =
      (L1 ++ (tid, mid) :: L2).foldl
        (step3SrcEntry env w (buildById ts) (ts.map (·.id)))
        ⟨pt0, ph0, [], []⟩ := by
    unfold srcStage3
    rw [hsplit]
  have hpt0' : tid ∉ (S3.mk pt0 ph0 [] []).pt := hpt0
  have hvanish := fold3_scenario_vanish hf3
    (fun s hpt => step3SrcEntry_vanish env w (buildById ts) (ts.map (·.id))
      s hby hpt)
    hk1 hv1 hv2 hpt0'
  rw [← hstage3] at hvanish
  have hf4 := step4_entryProp w (srcMap1 env w ts hs pt0 ph0)
    (reconcileMap hs).2
  have hs4d : ((srcStage4 env w ts hs pt0 ph0).trace).count
      (.deleteHabitica mid) = 0 := by
    unfold srcStage4
    rw [fold4_count_stable_nonclose hf4 (by intro t; simp) hs]
    simp
  have hs4c : ((srcStage4 env w ts hs pt0 ph0).trace).count
      (.completeHabitica mid) = 0 := by
    unfold srcStage4
    rw [fold4_count_stable_nonclose hf4 (by intro t; simp) hs]
    simp
  have hs5d : ((srcStage5 env w ts hs pt0 ph0).2).count
      (.deleteHabitica mid) = 0 := by
    unfold srcStage5
    rw [fold5_count_stable env w (by intro c n; simp) ts]
    simp
  have hs5c : ((srcStage5 env w ts hs pt0 ph0).2).count
      (.completeHabitica mid) = 0 := by
    unfold srcStage5
    rw [fold5_count_stable env w (by intro c n; simp) ts]
    simp
  refine ⟨?_, ?_, ?_⟩
  · simp only [List.count_append, hs4d, hs5d, hvanish.1]
    simp
  · simp only [List.count_append, hs4c, hs5c, hvanish.2.1]
    simp
  · have hmap1 : lookupM tid (srcMap1 env w ts hs pt0 ph0) = none := by
      unfold srcMap1
      exact lookupM_removeKeys_of_mem hvanish.2.2
    have hmap2 : lookupM tid (srcMap2 env w ts hs pt0 ph0) = none := by
      unfold srcMap2
      exact lookupM_none_removeKeys hmap1
    unfold srcStage5
    rw [fold5_lookup_stable env w ts _ (buildById_none_iff.mp hby)]
    exact hmap2

theorem claim1_amended_witness :
    ((perform_single_sync_cycle sampleEnv sampleWorld
        (.wellFormed [] []) [] [sampleTagged false]).trace).count
        (.deleteHabitica sampleH1) = 1 ∧
    ((perform_single_sync_cycle sampleEnv sampleWorld
        (.wellFormed [] []) [] [sampleTagged false]).trace).count
        (.completeHabitica sampleH1) = 0 ∧
    lookupM sampleT1
      (perform_single_sync_cycle sampleEnv sampleWorld
        (.wellFormed [] []) [] [sampleTagged false]).map = none :=
  claim1_amended_vanished_deletes sampleEnv sampleWorld (.wellFormed [] [])
    [] [sampleTagged false] sampleT1 sampleH1 (by decide) (by decide)
    (by decide) (by decide) (by decide) (by decide) (by decide)

/-- C2: for every Origin task `T1` that is completed in the fetched snapshot
and mapped (via the reconciled map) to Mirror task `M1`, with `T1` not yet
Origin-processed, one cycle of the online variant issues exactly one
Mirror-complete (scoring) call on `M1`, and on success adds `T1` to the
Origin-processed set and `M1` to the Mirror-processed set.  (In the root
variant this branch is unreachable end-to-end because its
`get_todoist_tasks` filters completed tasks out of the snapshot.) -/
theorem claim2_completion_o_to_m (env : Env) (w : World)
    (file : LinkStoreFile) (allTs : List TodoistTask) (today : Str)
    (hs : List HabiticaTask) (T1 M1 : Str) (tk : TodoistTask)
    (h1 : truthy env.todoistKey = true) (h2 : truthy env.habiticaUser = true)
    (h3 : truthy env.habiticaKey = true)
    (hnd : (hs.map (·.id)).Nodup)
    (hlk : lookupM T1 (reconcileMap hs).1 = some M1)
    (hby : buildById allTs T1 = some tk) (hc : tk.is_completed = true)
    (hpt0 : T1 ∉ (load_processed_state file).1) :
    ((perform_single_sync_cycle_online env w file allTs today hs).trace).count
        (.completeHabitica M1) = 1 ∧
    (complete_habitica_task env w M1 = true →
      T1 ∈ (perform_single_sync_cycle_online env w file allTs today hs).pt ∧
      M1 ∈ (perform_single_sync_cycle_online env w file allTs today hs).ph) := by
  rw [cycle_onl_run env w file allTs today hs h1 h2 h3]
  obtain ⟨L1, L2, hsplit, hk1, hk2, hv1, hv2⟩ := map_decomp_of_lookup hnd hlk
  have hf3 := step3Online_entryProp env w (buildById allTs)
    ((filterDueToday today allTs).map (·.id))
  set pt0 := (load_processed_state file).1 with hpt0def
  set ph0 := (load_processed_state file).2 with hph0def
  have hstage3 : onlStage3 env w allTs today hs pt0 ph0 =
      (L1 ++ (T1, M1) :: L2).foldl
        (step3OnlineEntry env w (buildById allTs)
          ((filterDueToday today allTs).map (·.id)))
        ⟨pt0, ph0, [], []⟩ := by
    unfold onlStage3
    rw [hsplit]
  have hpt0' : T1 ∉ (S3.mk pt0 ph0 [] []).pt := hpt0
  have hcompl := fold3_scenario_complete hf3
    (fun s hpt => step3OnlineEntry_completed env w (buildById allTs)
      ((filterDueToday today allTs).map (·.id)) s hby hc hpt)
    hk1 hv1 hv2 hpt0'
  rw [← hstage3] at hcompl
  have hf4 := step4_entryProp w (onlMap1 env w allTs today hs pt0 ph0)
    (reconcileMap hs).2
  have hs4c : ((onlStage4 env w allTs today hs pt0 ph0).trace).count
      (.completeHabitica M1) = 0 := by
    unfold onlStage4
    rw [fold4_count_stable_nonclose hf4 (by intro t; simp) hs]
    simp
  have hs5c : ((onlStage5 env w allTs today hs pt0 ph0).2).count
      (.completeHabitica M1) = 0 := by
    unfold onlStage5
    rw [fold5_count_stable env w (by intro c n; simp) (filterDueToday today allTs)]
    simp
  refine ⟨?_, ?_⟩
  · simp only [List.count_append, hs4c, hs5c, hcompl.1]
    simp
  · intro hok
    constructor
    · apply fold4_pt_mono hf4 hs _
      exact (hcompl.2.2 hok).1
    · apply fold4_ph_mono hf4 hs _
      exact (hcompl.2.2 hok).2

theorem claim2_witness :
    ((perform_single_sync_cycle_online sampleEnv sampleWorld
        (.wellFormed [] []) [sampleDone] ['d'] [sampleTagged false]).trace).count
        (.completeHabitica sampleH1) = 1 ∧
    (complete_habitica_task sampleEnv sampleWorld sampleH1 = true →
      sampleT1 ∈ (perform_single_sync_cycle_online sampleEnv sampleWorld
        (.wellFormed [] []) [sampleDone] ['d'] [sampleTagged false]).pt ∧
      sampleH1 ∈ (perform_single_sync_cycle_online sampleEnv sampleWorld
        (.wellFormed [] []) [sampleDone] ['d'] [sampleTagged false]).ph) :=
  claim2_completion_o_to_m sampleEnv sampleWorld (.wellFormed [] [])
    [sampleDone] ['d'] [sampleTagged false] sampleT1 sampleH1 sampleDone
    (by decide) (by decide) (by decide) (by decide) (by decide) (by decide)
    (by decide) (by decide)

/-- C5 (counterexample): a Mirror id already in the Mirror-processed set is
*not* protected from a new Mirror-complete call: when its Origin counterpart
is completed but unprocessed, the cycle scores the mirror task again (the
step-3 guard checks only the Origin-processed set). -/
theorem claim5_counterexample :
    sampleH1 ∈ (load_processed_state (.wellFormed [] [sampleH1])).2 ∧
    Action.completeHabitica sampleH1 ∈
      (perform_single_sync_cycle_online sampleEnv sampleWorld
        (.wellFormed [] [sampleH1]) [sampleDone] ['d']
        [sampleTagged false]).trace := by
  decide

/-- C5 (amended): once an Origin id is in the Origin-processed set at cycle
start, the cycle issues no Origin-close call for it, and no Mirror-complete
call driven by a map entry keyed by it; a Mirror id's own presence in the
Mirror-processed set does not by itself suppress a Mirror-complete. -/
theorem claim5_amended_no_resurrection (env : Env) (w : World)
    (file : LinkStoreFile) (allTs : List TodoistTask) (today : Str)
    (hs : List HabiticaTask) (tid mid : Str)
    (htid : tid ∈ (load_processed_state file).1) :
    ((perform_single_sync_cycle_online env w file allTs today hs).trace).count
        (.closeTodoist tid) = 0 ∧
    ((hs.map (·.id)).Nodup → lookupM tid (reconcileMap hs).1 = some mid →
      ((perform_single_sync_cycle_online env w file allTs today
          hs).trace).count (.completeHabitica mid) = 0) := by
  by_cases h1 : truthy env.todoistKey = true
  · by_cases h2 : truthy env.habiticaUser = true
    · by_cases h3 : truthy env.habiticaKey = true
      · rw [cycle_onl_run env w file allTs today hs h1 h2 h3]
        set pt0 := (load_processed_state file).1 with hpt0def
        set ph0 := (load_processed_state file).2 with hph0def
        have hf3 := step3Online_entryProp env w (buildById allTs)
          ((filterDueToday today allTs).map (·.id))
        have hf4 := step4_entryProp w (onlMap1 env w allTs today hs pt0 ph0)
          (reconcileMap hs).2
        constructor
        · have hs3 : ((onlStage3 env w allTs today hs pt0 ph0).trace).count
              (.closeTodoist tid) = 0 := by
            unfold onlStage3
            rw [fold3_count_stable hf3 _ (reconcileMap hs).1 _
              (by intro e he; exact ⟨by simp, by simp⟩)]
            simp
          have hmem : tid ∈ (onlStage3 env w allTs today hs pt0 ph0).pt := by
            unfold onlStage3
            exact fold3_pt_mono hf3 (reconcileMap hs).1 _ htid
          have hs4 : ((onlStage4 env w allTs today hs pt0 ph0).trace).count
              (.closeTodoist tid) = 0 := by
            unfold onlStage4
            rw [fold4_count_close_stable_of_mem hf4 hs _ hmem]
            simp
          have hs5 : ((onlStage5 env w allTs today hs pt0 ph0).2).count
              (.closeTodoist tid) = 0 := by
            unfold onlStage5
            rw [fold5_count_stable env w (by intro c n; simp)
              (filterDueToday today allTs)]
            simp
          simp only [List.count_append, hs3, hs4, hs5]
        · intro hnd hlk
          obtain ⟨L1, L2, hsplit, hk1, hk2, hv1, hv2⟩ :=
            map_decomp_of_lookup hnd hlk
          have hs3 : ((onlStage3 env w allTs today hs pt0 ph0).trace).count
              (.completeHabitica mid) = 0 := by
            unfold onlStage3
            rw [fold3_complete_count_guard hf3 (reconcileMap hs).1 _
              ?_ htid]
            · simp
            · intro e he hv
              rw [hsplit] at he
              rcases List.mem_append.mp he with he | he
              · exact absurd hv (hv1 e he)
              · rcases List.mem_cons.mp he with rfl | he
                · rfl
                · exact absurd hv (hv2 e he)
          have hs4 : ((onlStage4 env w allTs today hs pt0 ph0).trace).count
              (.completeHabitica mid) = 0 := by
            unfold onlStage4
            rw [fold4_count_stable_nonclose hf4 (by intro t; simp) hs]
            simp
          have hs5 : ((onlStage5 env w allTs today hs pt0 ph0).2).count
              (.completeHabitica mid) = 0 := by
            unfold onlStage5
            rw [fold5_count_stable env w (by intro c n; simp)
              (filterDueToday today allTs)]
            simp
          simp only [List.count_append, hs3, hs4, hs5]
      · rw [cycle_onl_noCreds env w file allTs today hs
          (Or.inr (Or.inr (Bool.not_eq_true _ ▸ h3)))]
        exact ⟨rfl, fun _ _ => rfl⟩
    · rw [cycle_onl_noCreds env w file allTs today hs
        (Or.inr (Or.inl (Bool.not_eq_true _ ▸ h2)))]
      exact ⟨rfl, fun _ _ => rfl⟩
  · rw [cycle_onl_noCreds env w file allTs today hs
      (Or.inl (Bool.not_eq_true _ ▸ h1))]
    exact ⟨rfl, fun _ _ => rfl⟩

theorem claim5_amended_witness :
    ((perform_single_sync_cycle_online sampleEnv sampleWorld
        (.wellFormed [sampleT1] []) [sampleDone] ['d']
        [sampleTagged false]).trace).count (.closeTodoist sampleT1) = 0 ∧
    ((([sampleTagged false] : List HabiticaTask).map (·.id)).Nodup →
      lookupM sampleT1 (reconcileMap [sampleTagged false]).1 = some sampleH1 →
      ((perform_single_sync_cycle_online sampleEnv sampleWorld
          (.wellFormed [sampleT1] []) [sampleDone] ['d']
          [sampleTagged false]).trace).count
        (.completeHabitica sampleH1) = 0) :=
  claim5_amended_no_resurrection sampleEnv sampleWorld
    (.wellFormed [sampleT1] []) [sampleDone] ['d'] [sampleTagged false]
    sampleT1 sampleH1 (by decide)

/-- C8: in step 3 of `main.py`, for a mapped, completed, unprocessed Origin
task whose Mirror-complete call fails, neither processed set gains an entry
for the pair — yet the map entry `(tid, mid)` is removed from the post-step-3
map whether the call succeeds or fails. -/
theorem claim8_failed_complete (env : Env) (w : World)
    (ts : List TodoistTask) (hs : List HabiticaTask) (pt0 ph0 : List Str)
    (tid mid : Str) (tk : TodoistTask)
    (hnd : (hs.map (·.id)).Nodup)
    (hlk : lookupM tid (reconcileMap hs).1 = some mid)
    (hby : buildById ts tid = some tk) (hc : tk.is_completed = true)
    (hpt0 : tid ∉ pt0) (hph0 : mid ∉ ph0) :
    (complete_habitica_task env w mid = false →
      tid ∉ (srcStage3 env w ts hs pt0 ph0).pt ∧
      mid ∉ (srcStage3 env w ts hs pt0 ph0).ph) ∧
    lookupM tid (srcMap1 env w ts hs pt0 ph0) = none := by
  obtain ⟨L1, L2, hsplit, hk1, hk2, hv1, hv2⟩ := map_decomp_of_lookup hnd hlk
  have hf3 := step3Src_entryProp env w (buildById ts) (ts.map (·.id))
  have hstage3 : srcStage3 env w ts hs pt0 ph0 =
      L2.foldl (step3SrcEntry env w (buildById ts) (ts.map (·.id)))
        (step3SrcEntry env w (buildById ts) (ts.map (·.id))
          (L1.foldl (step3SrcEntry env w (buildById ts) (ts.map (·.id)))
            ⟨pt0, ph0, [], []⟩)
          (tid, mid)) := by
    unfold srcStage3
    rw [hsplit, List.foldl_append, List.foldl_cons]
  set s1 := L1.foldl (step3SrcEntry env w (buildById ts) (ts.map (·.id)))
    ⟨pt0, ph0, [], []⟩ with hs1
  have hpt1 : tid ∉ s1.pt :=
    fold3_pt_not_mem hf3 hk1 (hpt0 : tid ∉ (S3.mk pt0 ph0 [] []).pt)
  have hph1 : mid ∉ s1.ph :=
    fold3_ph_not_mem hf3 hv1 (hph0 : mid ∉ (S3.mk pt0 ph0 [] []).ph)
  have hstep := @step3SrcEntry_completed env w (buildById ts)
    (ts.map (·.id)) s1 tid mid tk hby hc hpt1
  constructor
  · intro hfail
    rw [hfail] at hstep
    simp only [Bool.false_eq_true, if_false] at hstep
    rw [hstage3, hstep]
    exact ⟨fold3_pt_not_mem hf3 hk2 hpt1, fold3_ph_not_mem hf3 hv2 hph1⟩
  · have hrm : tid ∈ (srcStage3 env w ts hs pt0 ph0).removeIds := by
      rw [hstage3, hstep]
      apply fold3_rm_mono hf3 L2 _
      exact mem_insertS_self tid s1.removeIds
    unfold srcMap1
    exact lookupM_removeKeys_of_mem hrm

theorem claim8_witness :
    (complete_habitica_task sampleEnv sampleWorldFail sampleH1 = false →
      sampleT1 ∉ (srcStage3 sampleEnv sampleWorldFail [sampleDone]
        [sampleTagged false] [] []).pt ∧
      sampleH1 ∉ (srcStage3 sampleEnv sampleWorldFail [sampleDone]
        [sampleTagged false] [] []).ph) ∧
    lookupM sampleT1 (srcMap1 sampleEnv sampleWorldFail [sampleDone]
      [sampleTagged false] [] []) = none :=
  claim8_failed_complete sampleEnv sampleWorldFail [sampleDone]
    [sampleTagged false] [] [] sampleT1 sampleH1 sampleDone (by decide)
    (by decide) (by decide) (by decide) (by decide) (by decide)

/-- C3: for every Mirror task `ht0` marked completed, linked (via note tag
or map value) and resolving to a truthy Origin id `T2`, with `ht0.id` not
Mirror-processed and `T2` not Origin-processed when step 4 starts, and no
other snapshot task resolving to `T2`, one cycle of `main.py` issues exactly
one Origin-close call for `T2`; on success both ids are added to their
processed sets and the map entry for `T2` is dropped. -/
theorem claim3_completion_m_to_o (env : Env) (w : World)
    (file : LinkStoreFile) (ts : List TodoistTask) (hs : List HabiticaTask)
    (ht0 : HabiticaTask) (T2 : Str)
    (h1 : truthy env.todoistKey = true) (h2 : truthy env.habiticaUser = true)
    (h3 : truthy env.habiticaKey = true)
    (hnd : (hs.map (·.id)).Nodup)
    (hmem : ht0 ∈ hs) (hcomp : ht0.completed = true)
    (hlink : ht0.id ∈ (reconcileMap hs).2 ∨
      ht0.id ∈ valuesM (srcMap1 env w ts hs (load_processed_state file).1
        (load_processed_state file).2))
    (hres : resolveTid (srcMap1 env w ts hs (load_processed_state file).1
      (load_processed_state file).2) ht0 = some T2)
    (htne : T2 ≠ [])
    (huniq : ∀ ht' ∈ hs, ht'.id ≠ ht0.id →
      resolveTid (srcMap1 env w ts hs (load_processed_state file).1
        (load_processed_state file).2) ht' ≠ some T2)
    (hpt3 : T2 ∉ (srcStage3 env w ts hs (load_processed_state file).1
      (load_processed_state file).2).pt)
    (hph3 : ht0.id ∉ (srcStage3 env w ts hs (load_processed_state file).1
      (load_processed_state file).2).ph)
    (hts : ∀ tk ∈ ts, tk.id ≠ T2) :
    ((perform_single_sync_cycle env w file ts hs).trace).count
        (.closeTodoist T2) = 1 ∧
    (complete_todoist_task w T2 = true →
      T2 ∈ (perform_single_sync_cycle env w file ts hs).pt ∧
      ht0.id ∈ (perform_single_sync_cycle env w file ts hs).ph ∧
      lookupM T2 (perform_single_sync_cycle env w file ts hs).map = none) := by
  rw [cycle_src_run env w file ts hs h1 h2 h3]
  set pt0 := (load_processed_state file).1 with hpt0def
  set ph0 := (load_processed_state file).2 with hph0def
  obtain ⟨H1, H2, hhs⟩ := List.append_of_mem hmem
  subst hhs
  rw [List.map_append, List.map_cons] at hnd
  have hk := nodup_middle_not_mem hnd
  have hH1id : ∀ ht' ∈ H1, ht'.id ≠ ht0.id := by
    intro ht' h' heq
    exact hk.1 (heq ▸ List.mem_map.mpr ⟨ht', h', rfl⟩)
  have hH2id : ∀ ht' ∈ H2, ht'.id ≠ ht0.id := by
    intro ht' h' heq
    exact hk.2 (heq ▸ List.mem_map.mpr ⟨ht', h', rfl⟩)
  have hH1res : ∀ ht' ∈ H1,
      resolveTid (srcMap1 env w ts (H1 ++ ht0 :: H2) pt0 ph0) ht' ≠
        some T2 := by
    intro ht' h'
    exact huniq ht' (List.mem_append.mpr (Or.inl h')) (hH1id ht' h')
  have hH2res : ∀ ht' ∈ H2,
      resolveTid (srcMap1 env w ts (H1 ++ ht0 :: H2) pt0 ph0) ht' ≠
        some T2 := by
    intro ht' h'
    exact huniq ht'
      (List.mem_append.mpr (Or.inr (List.mem_cons_of_mem ht0 h')))
      (hH2id ht' h')
  set m1 := srcMap1 env w ts (H1 ++ ht0 :: H2) pt0 ph0 with hm1
  set tg := (reconcileMap (H1 ++ ht0 :: H2)).2 with htg
  set s3 := srcStage3 env w ts (H1 ++ ht0 :: H2) pt0 ph0 with hs3
  have hstage4eq : srcStage4 env w ts (H1 ++ ht0 :: H2) pt0 ph0 =
      (H1 ++ ht0 :: H2).foldl (step4Entry w m1 tg)
        ⟨s3.pt, s3.ph, [], []⟩ := by
    unfold srcStage4
    rfl
  have hph3' : ht0.id ∉ (S4.mk s3.pt s3.ph [] []).ph := hph3
  have hpt3' : T2 ∉ (S4.mk s3.pt s3.ph [] []).pt := hpt3
  have hsc := fold4_scenario_close w m1 tg hlink hcomp hres htne hH1id
    hH1res hH2res hph3' hpt3'
  rw [← hstage4eq] at hsc
  have hf3 := step3Src_entryProp env w (buildById ts)
    (ts.map (·.id))
  have hs3c : (s3.trace).count (.closeTodoist T2) = 0 := by
    rw [hs3]
    unfold srcStage3
    rw [fold3_count_stable hf3 _ (reconcileMap (H1 ++ ht0 :: H2)).1 _
      (by intro e he; exact ⟨by simp, by simp⟩)]
    simp
  have hs5c : ((srcStage5 env w ts (H1 ++ ht0 :: H2) pt0 ph0).2).count
      (.closeTodoist T2) = 0 := by
    unfold srcStage5
    rw [fold5_count_stable env w (by intro c n; simp) ts]
    simp
  refine ⟨?_, ?_⟩
  · simp only [List.count_append, hs3c, hs5c, hsc.1]
    simp
  · intro hok
    obtain ⟨hT2pt, hidph, hT2rm⟩ := hsc.2 hok
    refine ⟨hT2pt, hidph, ?_⟩
    have hmap2 : lookupM T2 (srcMap2 env w ts (H1 ++ ht0 :: H2) pt0 ph0) =
        none := by
      unfold srcMap2
      exact lookupM_removeKeys_of_mem hT2rm
    unfold srcStage5
    rw [fold5_lookup_stable env w ts _ hts]
    exact hmap2

theorem claim3_witness :
    ((perform_single_sync_cycle sampleEnv sampleWorld (.wellFormed [] [])
        [] [sampleTagged true]).trace).count (.closeTodoist sampleT1) = 1 ∧
    (complete_todoist_task sampleWorld sampleT1 = true →
      sampleT1 ∈ (perform_single_sync_cycle sampleEnv sampleWorld
        (.wellFormed [] []) [] [sampleTagged true]).pt ∧
      (sampleTagged true).id ∈ (perform_single_sync_cycle sampleEnv
        sampleWorld (.wellFormed [] []) [] [sampleTagged true]).ph ∧
      lookupM sampleT1 (perform_single_sync_cycle sampleEnv sampleWorld
        (.wellFormed [] []) [] [sampleTagged true]).map = none) :=
  claim3_completion_m_to_o sampleEnv sampleWorld (.wellFormed [] []) []
    [sampleTagged true] (sampleTagged true) sampleT1 (by decide) (by decide)
    (by decide) (by decide) (by decide) (by decide) (by decide) (by decide)
    (by decide) (by decide) (by decide) (by decide) (by decide)

end TodoistHabitica
